import Mathlib

/-!
Verification development for the cluster-native pipeline engine.

Part A embeds the cluster resolver (`pkg/resolution/resolver/cluster/resolver.go`)
directly from its source. Part B models the PipelineRun reconciler; its code is
not part of the source tree here (only its test suite is), so those definitions
are modelled from the specification, with the concrete behaviour pinned by the
expected objects in the test suite.
-/

deriving instance DecidableEq for Except

namespace Cluster

/-- A resolution request parameter: mirrors `pipelinev1beta1.Param` restricted to
the string value used by the cluster resolver. -/
structure Param where
  name : String
  stringVal : String
deriving DecidableEq, Repr

/-- Value of `KindParam` in the source. -/
def KindParam : String := "kind"

/-- Value of `NameParam` in the source. -/
def NameParam : String := "name"

/-- Value of `NamespaceParam` in the source. -/
def NamespaceParam : String := "namespace"

/-- The resolver configuration map, restricted to the four keys read by
`populateParamsWithDefaults`.  `default-kind` and `default-namespace` are kept
as `Option` because the source distinguishes a missing key (`ok`) from an empty
value; the blocked/allowed lists are only compared against `""`, which is what a
missing Go map key yields, so a plain `String` is faithful. -/
structure ResolverConfig where
  defaultKind : Option String
  defaultNamespace : Option String
  blockedNamespaces : String
  allowedNamespaces : String
deriving DecidableEq, Repr

/-- Errors returned by the cluster resolver, one constructor per distinct
`fmt.Errorf`/`errors.New` site in the source. -/
inductive ResolverError
  | disabled
  | unknownKind (kind : String)
  | missingParams (names : List String)
  | blockedNamespace (ns : String)
  | notAllowedNamespace (ns : String)
  | storeError (name : String)
deriving DecidableEq, Repr

/-- The `params` map built by `populateParamsWithDefaults`; each field mirrors a
possible entry of the Go `map[string]string`. -/
structure PopulatedParams where
  kind : Option String
  name : Option String
  nspace : Option String
deriving DecidableEq, Repr

/-- Embeds the Go map `paramsMap` built by iterating `origParams`: a later
binding for a name overwrites an earlier one. -/
def paramsMapLookup (ps : List Param) (n : String) : Option String :=
  ps.foldl (fun acc p => if p.name = n then some p.stringVal else acc) none

/-- Embeds `strings.Split(s, ",")`: cuts the string at every comma, keeping
empty segments, and splits the empty string into `[""]`. -/
def splitOnComma (s : String) : List String :=
  (s.toList.foldr (fun c acc =>
    match acc with
    | cur :: rest => if c = ',' then [] :: cur :: rest else (c :: cur) :: rest
    | [] => [[c]]) [[]]).map String.mk

/-- Embeds `isInCommaSeparatedList`: splits on commas and compares each segment
for exact string equality, mirroring the early-return loop. -/
def isInCommaSeparatedList (checkVal : String) (commaList : String) : Bool :=
  (splitOnComma commaList).any (fun s => s = checkVal)

/-- The two trailing namespace-access checks of `populateParamsWithDefaults`:
a non-empty blocked list rejects a member namespace first, then a non-empty
allowed list rejects a non-member namespace. -/
def checkNamespaceAccess (conf : ResolverConfig) (ns : String) :
    Except ResolverError Unit :=
  if conf.blockedNamespaces ≠ "" && isInCommaSeparatedList ns conf.blockedNamespaces then
    .error (.blockedNamespace ns)
  else if conf.allowedNamespaces ≠ "" && !isInCommaSeparatedList ns conf.allowedNamespaces then
    .error (.notAllowedNamespace ns)
  else
    .ok ()

/-- The kind parameter after applying the configured default, mirroring the
first block of `populateParamsWithDefaults`: an absent or empty `kind` param
falls back to the configured `default-kind` (if any). -/
def kindAfterDefault (conf : ResolverConfig) (origParams : List Param) : Option String :=
  match paramsMapLookup origParams KindParam with
  | some s => if s = "" then conf.defaultKind else some s
  | none => conf.defaultKind

/-- The name parameter as read by `populateParamsWithDefaults`: there is no
configured default for it, an absent or empty value is missing. -/
def nameGiven (origParams : List Param) : Option String :=
  match paramsMapLookup origParams NameParam with
  | some s => if s = "" then none else some s
  | none => none

/-- The namespace parameter after applying the configured default. -/
def namespaceAfterDefault (conf : ResolverConfig) (origParams : List Param) : Option String :=
  match paramsMapLookup origParams NamespaceParam with
  | some s => if s = "" then conf.defaultNamespace else some s
  | none => conf.defaultNamespace

/-- Embeds `populateParamsWithDefaults`: resolves kind/name/namespace with
defaults, rejects an unsupported kind as soon as a kind value is known, then
reports every missing parameter in one error, then applies the blocked/allowed
namespace checks. -/
def populateParamsWithDefaults (conf : ResolverConfig) (origParams : List Param) :
    Except ResolverError PopulatedParams :=
  let kindVal := kindAfterDefault conf origParams
  let missing1 : List String := if kindVal.isNone then [KindParam] else []
  match kindVal with
  | some k =>
    if k ≠ "task" && k ≠ "pipeline" then
      .error (.unknownKind k)
    else
      populateAfterKind conf origParams kindVal missing1
  | none => populateAfterKind conf origParams kindVal missing1
where
  /-- The part of `populateParamsWithDefaults` after the kind-validity check. -/
  populateAfterKind (conf : ResolverConfig) (origParams : List Param)
      (kindVal : Option String) (missing1 : List String) :
      Except ResolverError PopulatedParams :=
    let nameVal := nameGiven origParams
    let missing2 := missing1 ++ (if nameVal.isNone then [NameParam] else [])
    let nsVal := namespaceAfterDefault conf origParams
    let missing3 := missing2 ++ (if nsVal.isNone then [NamespaceParam] else [])
    if missing3 ≠ [] then
      .error (.missingParams missing3)
    else
      match checkNamespaceAccess conf (nsVal.getD "") with
      | .error e => .error e
      | .ok _ => .ok ⟨kindVal, nameVal, nsVal⟩

/-- Embeds `Resolver.ValidateParams`: fails when the resolver is disabled,
otherwise delegates to `populateParamsWithDefaults` and discards the map. -/
def validateParams (enabled : Bool) (conf : ResolverConfig) (params : List Param) :
    Except ResolverError Unit :=
  if !enabled then .error .disabled
  else
    match populateParamsWithDefaults conf params with
    | .error e => .error e
    | .ok _ => .ok ()

/-- Kind of object fetched from the cluster store by `Resolve`. -/
inductive FetchKind
  | task
  | pipeline
deriving DecidableEq, Repr

/-- One `Get` issued against the cluster store. -/
structure Fetch where
  kind : FetchKind
  nspace : String
  name : String
deriving DecidableEq, Repr

/-- The cluster object store as consumed by `Resolve`: `none` stands for the
`Get` call returning an error. -/
structure ClusterStore where
  getTask : String → String → Option String
  getPipeline : String → String → Option String

/-- Embeds `ResolvedClusterResource` (content bytes plus the name/namespace
annotations). -/
structure ResolvedClusterResource where
  content : String
  name : String
  nspace : String
deriving DecidableEq, Repr

/-- Embeds `Resolver.Resolve`, instrumented with the list of store fetches it
performs: disabled or invalid parameters fail before any fetch; otherwise the
task or pipeline is fetched from the requested namespace and marshalled. -/
def resolve (enabled : Bool) (conf : ResolverConfig) (store : ClusterStore)
    (origParams : List Param) :
    Except ResolverError ResolvedClusterResource × List Fetch :=
  if !enabled then (.error .disabled, [])
  else
    match populateParamsWithDefaults conf origParams with
    | .error e => (.error e, [])
    | .ok ps =>
      let kind := ps.kind.getD ""
      let name := ps.name.getD ""
      let ns := ps.nspace.getD ""
      if kind = "task" then
        match store.getTask ns name with
        | none => (.error (.storeError name), [⟨.task, ns, name⟩])
        | some content => (.ok ⟨content, name, ns⟩, [⟨.task, ns, name⟩])
      else if kind = "pipeline" then
        match store.getPipeline ns name with
        | none => (.error (.storeError name), [⟨.pipeline, ns, name⟩])
        | some content => (.ok ⟨content, name, ns⟩, [⟨.pipeline, ns, name⟩])
      else
        (.error (.unknownKind kind), [])

/-- Recognizes the missing-required-params error. -/
def isMissingParamsError : Except ResolverError PopulatedParams → Bool
  | .error (.missingParams _) => true
  | _ => false

end Cluster

namespace PipelineRun

/-- Condition status of the canonical `Succeeded` condition. -/
inductive CondStatus
  | unknown
  | condTrue
  | condFalse
deriving DecidableEq, Repr

/-- The canonical condition written to a pipeline-run or a child. -/
structure Condition where
  status : CondStatus
  reason : String
deriving DecidableEq, Repr

/-- The ternary spec-status of a pipeline-run. -/
inductive SpecStatus
  | unset
  | pending
  | cancelled
  | cancelledRunFinally
  | stoppedRunFinally
deriving DecidableEq, Repr

/-- Modelled from the spec: the input of a `when` expression is, after one
substitution pass, either a literal string or a reference to a task's result
(`$(tasks.<task>.results.<result>)`). -/
inductive WhenInput
  | lit (s : String)
  | resultRef (task : String) (result : String)
deriving DecidableEq, Repr

/-- A `when` expression `(input, operator ∈ {in, notin}, values)`. -/
structure WhenExpr where
  input : WhenInput
  operator : String
  values : List String
deriving DecidableEq, Repr

/-- Modelled from the spec: a pipeline-task as the reconciler sees it — a
stable name, `runAfter` predecessors, `when` expressions, result references
occurring in its parameter bindings, and a retry count. -/
structure PipelineTask where
  name : String
  runAfter : List String
  whenExprs : List WhenExpr
  paramResultRefs : List (String × String)
  retries : Nat
deriving DecidableEq, Repr

/-- A pipeline specification: the DAG task list and the finally task list. -/
structure PipelineSpec where
  tasks : List PipelineTask
  finallyTasks : List PipelineTask
deriving DecidableEq, Repr

/-- The observed status of a child (task-run): its `Succeeded` condition (absent
while starting), its emitted results, and the archived prior attempts. -/
structure ChildStatus where
  cond : Option Condition
  results : List (String × String)
  retriesStatus : List Condition
deriving DecidableEq, Repr

/-- Reason string a child carries when it failed because it was cancelled. -/
def taskRunCancelledReason : String := "TaskRunCancelled"

/-- A child is done once its condition is True or False. -/
def ChildStatus.isDone (c : ChildStatus) : Bool :=
  match c.cond with
  | some cd => cd.status ≠ .unknown
  | none => false

/-- A child succeeded when its condition is True. -/
def ChildStatus.isSucceeded (c : ChildStatus) : Bool :=
  match c.cond with
  | some cd => cd.status = .condTrue
  | none => false

/-- A child failed (for a reason other than cancellation) when its condition is
False with a non-cancelled reason. -/
def ChildStatus.isFailed (c : ChildStatus) : Bool :=
  match c.cond with
  | some cd => cd.status = .condFalse && cd.reason ≠ taskRunCancelledReason
  | none => false

/-- A child was cancelled when its condition is False with the cancelled
reason. -/
def ChildStatus.isCancelled (c : ChildStatus) : Bool :=
  match c.cond with
  | some cd => cd.status = .condFalse && cd.reason = taskRunCancelledReason
  | none => false

/-- The store snapshot of children, keyed by pipeline-task name. -/
structure Snapshot where
  children : List (String × ChildStatus)
deriving DecidableEq, Repr

/-- The child created for a pipeline-task, if any. -/
def Snapshot.childOf (s : Snapshot) (t : String) : Option ChildStatus :=
  s.children.lookup t

/-- Mutable status of a pipeline-run together with its immutable spec fields
needed by the reconciler (spec-status, pipeline, overall timeout in minutes
where `0` means no limit). -/
structure PRState where
  specStatus : SpecStatus
  spec : PipelineSpec
  timeout : Nat
  startTime : Option Nat
  completionTime : Option Nat
  condition : Option Condition
  skippedTasks : List (String × String)
deriving DecidableEq, Repr

/-- Store mutations issued during one reconcile pass. -/
inductive Action
  | createChild (taskName : String)
  | patchCancel (taskName : String)
deriving DecidableEq, Repr

/-- Kinds of cluster events. -/
inductive EventKind
  | normal
  | warning
deriving DecidableEq, Repr

/-- A cluster event emitted during one reconcile pass. -/
structure Event where
  kind : EventKind
  reason : String
deriving DecidableEq, Repr

/-- Result of one reconcile pass: the new pipeline-run state, the store
mutations, the events, and whether the key is requeued. -/
structure ReconcileResult where
  state : PRState
  actions : List Action
  events : List Event
  requeue : Bool
deriving DecidableEq, Repr

/-- Inputs of one reconcile pass: the wall clock, the child snapshot, and the
outcome of each cancel patch the pass may issue (`false` = the PATCH call
fails). -/
structure ReconcileInput where
  now : Nat
  snapshot : Snapshot
  patchOk : String → Bool

/-- A condition is terminal when its status is True or False. -/
def isTerminal (c : Option Condition) : Bool :=
  match c with
  | some cd => cd.status ≠ .unknown
  | none => false

/-- Modelled from the spec: pipeline-level timeout check — elapsed time strictly
greater than the configured timeout triggers, and a zero duration means no
limit. -/
def hasTimedOut (now startTime timeout : Nat) : Bool :=
  timeout ≠ 0 && now - startTime > timeout

/-- Tasks whose results this task references (from `when` inputs and parameter
bindings); each induces a DAG edge. -/
def resultRefs (t : PipelineTask) : List (String × String) :=
  t.whenExprs.filterMap (fun w =>
    match w.input with
    | .resultRef tk r => some (tk, r)
    | .lit _ => none) ++ t.paramResultRefs

/-- The DAG parents of a task: `runAfter` predecessors plus result-reference
edges. -/
def parents (t : PipelineTask) : List String :=
  t.runAfter ++ (resultRefs t).map Prod.fst

/-- A referenced result is available only when the producing task's child
succeeded and emitted it. -/
def lookupResult (snap : Snapshot) (task result : String) : Option String :=
  match snap.childOf task with
  | some c => if c.isSucceeded then c.results.lookup result else none
  | none => none

/-- Value of a `when` input after substitution; `none` is a missing result. -/
def whenInputValue (snap : Snapshot) : WhenInput → Option String
  | .lit s => some s
  | .resultRef tk r => lookupResult snap tk r

/-- Evaluation of one `when` entry; `none` propagates a missing result. -/
def evalWhen (snap : Snapshot) (w : WhenExpr) : Option Bool :=
  match whenInputValue snap w.input with
  | none => none
  | some v =>
    if w.operator = "notin" then some (!(w.values.contains v))
    else some (w.values.contains v)

/-- Some `when` entry of the task evaluates to false. -/
def whenFalse (snap : Snapshot) (t : PipelineTask) : Bool :=
  t.whenExprs.any (fun w => evalWhen snap w = some false)

/-- A task is done-or-skipped when its child is terminal or it was recorded as
skipped. -/
def taskDoneOrSkipped (snap : Snapshot) (skips : List (String × String)) (p : String) : Bool :=
  (match snap.childOf p with
   | some c => c.isDone
   | none => false) || (skips.lookup p).isSome

/-- The cancellation/stop context of the pass, derived from spec-status and the
deadline check. -/
structure EvalMode where
  gracefullyCancelled : Bool
  gracefullyStopped : Bool
deriving DecidableEq, Repr

/-- The evaluation mode of an ordinary (non-cancelled, non-stopped) pass. -/
def normalMode : EvalMode := ⟨false, false⟩

/-- Closed set of skip reasons (glossary). -/
def whenExpressionsSkip : String := "WhenExpressionsSkip"

/-- Skip reason recorded when a task's parent was skipped. -/
def parentTasksSkip : String := "ParentTasksSkip"

/-- Skip reason recorded when a referenced result is missing. -/
def missingResultsSkip : String := "MissingResultsSkip"

/-- Skip reason recorded on graceful cancellation. -/
def gracefullyCancelledSkip : String := "GracefullyCancelledSkip"

/-- Skip reason recorded on graceful stop. -/
def gracefullyStoppedSkip : String := "GracefullyStoppedSkip"

/-- Modelled from the spec: classification of one unstarted DAG task.  A
started task is never skipped; graceful cancellation/stop skips every unstarted
task; a parent skipped for any reason other than `WhenExpressionsSkip` skips
the task; with all parents done-or-skipped, a missing referenced result skips
it; otherwise a false `when` conjunction skips it; `when` is scoped to the node
itself, so a parent's `WhenExpressionsSkip` alone never skips the node. -/
def classifyDAGTask (snap : Snapshot) (mode : EvalMode) (skips : List (String × String))
    (t : PipelineTask) : Option String :=
  if (snap.childOf t.name).isSome then none
  else if mode.gracefullyCancelled then some gracefullyCancelledSkip
  else if mode.gracefullyStopped then some gracefullyStoppedSkip
  else if (parents t).any (fun p =>
      match skips.lookup p with
      | some r => r ≠ whenExpressionsSkip
      | none => false) then some parentTasksSkip
  else if (parents t).all (taskDoneOrSkipped snap skips) &&
      (resultRefs t).any (fun pr => (lookupResult snap pr.1 pr.2).isNone) then
    some missingResultsSkip
  else if (parents t).all (taskDoneOrSkipped snap skips) && whenFalse snap t then
    some whenExpressionsSkip
  else none

/-- Folds the classification over the DAG tasks in declaration order, recording
one reason per skipped task. -/
def dagSkips (snap : Snapshot) (mode : EvalMode) (tasks : List PipelineTask) :
    List (String × String) :=
  tasks.foldl (fun skips t =>
    match classifyDAGTask snap mode skips t with
    | some r => skips ++ [(t.name, r)]
    | none => skips) []

/-- A DAG task is ready to be created when it is unstarted, not skipped, and
all its parents are done-or-skipped. -/
def readyToCreate (snap : Snapshot) (skips : List (String × String)) (t : PipelineTask) : Bool :=
  (snap.childOf t.name).isNone && (skips.lookup t.name).isNone &&
    (parents t).all (taskDoneOrSkipped snap skips)

/-- The reachable DAG is complete once every DAG task is done-or-skipped. -/
def dagComplete (snap : Snapshot) (skips : List (String × String))
    (tasks : List PipelineTask) : Bool :=
  tasks.all (fun t => taskDoneOrSkipped snap skips t.name)

/-- Modelled from the spec: classification of a finally task — never skipped by
graceful cancellation; a missing referenced result or a false `when` skips it. -/
def classifyFinallyTask (snap : Snapshot) (t : PipelineTask) : Option String :=
  if (snap.childOf t.name).isSome then none
  else if (resultRefs t).any (fun pr => (lookupResult snap pr.1 pr.2).isNone) then
    some missingResultsSkip
  else if whenFalse snap t then some whenExpressionsSkip
  else none

/-- Skip entries for the finally tasks (evaluated only once the DAG is
complete). -/
def finallySkips (snap : Snapshot) (tasks : List PipelineTask) : List (String × String) :=
  tasks.filterMap (fun t => (classifyFinallyTask snap t).map (fun r => (t.name, r)))

/-- Children of the listed tasks that are not yet terminal (the targets of
cancel/timeout patches). -/
def nonTerminalChildren (snap : Snapshot) (tasks : List PipelineTask) : List String :=
  tasks.filterMap (fun t =>
    match snap.childOf t.name with
    | some c => if c.isDone then none else some t.name
    | none => none)

end PipelineRun

namespace PipelineRun

/-- Non-terminal condition reason after a failed cancel patch. -/
def reasonCouldntCancel : String := "CouldntCancel"

/-- Non-terminal condition reason after a failed timeout patch. -/
def reasonCouldntTimeOut : String := "CouldntTimeOut"

/-- Terminal reason of a cancelled pipeline-run. -/
def reasonCancelled : String := "Cancelled"

/-- Terminal reason of a timed-out pipeline-run. -/
def reasonPipelineRunTimeout : String := "PipelineRunTimeout"

/-- Progress reason while the finally sub-graph of a gracefully cancelled
pipeline-run is still running. -/
def reasonCancelledRunningFinally : String := "CancelledRunningFinally"

/-- Progress reason while the finally sub-graph of a gracefully stopped
pipeline-run is still running. -/
def reasonStoppedRunningFinally : String := "StoppedRunningFinally"

/-- Non-terminal reason of a pending pipeline-run. -/
def reasonPipelineRunPending : String := "PipelineRunPending"

/-- Skip reason for unstarted tasks at a pipeline timeout. -/
def pipelineTimedOutSkip : String := "PipelineTimedOutSkip"

/-- Modelled from the spec: the hard-stop path shared by `Cancelled` and
`PipelineTimedOut` — patch every non-terminal child (DAG and finally); if any
patch fails the pipeline-run MUST stay non-terminal with the corresponding
`Couldnt*` reason, a normal event and a requeue; if every patch succeeds every
unstarted task is skipped and the run becomes terminal. -/
def reconcileHardStop (pr : PRState) (inp : ReconcileInput)
    (skipReason terminalReason couldntReason couldntEvent : String) : ReconcileResult :=
  let toPatch := nonTerminalChildren inp.snapshot (pr.spec.tasks ++ pr.spec.finallyTasks)
  let patches := toPatch.map Action.patchCancel
  if toPatch.all inp.patchOk then
    let newSkips := (pr.spec.tasks ++ pr.spec.finallyTasks).filterMap (fun t =>
      if (inp.snapshot.childOf t.name).isNone then some (t.name, skipReason) else none)
    ⟨{ pr with
        condition := some ⟨.condFalse, terminalReason⟩
        completionTime := some inp.now
        skippedTasks := pr.skippedTasks ++ newSkips },
      patches, [⟨.warning, terminalReason⟩], false⟩
  else
    ⟨{ pr with condition := some ⟨.unknown, couldntReason⟩ },
      patches, [⟨.normal, couldntEvent⟩], true⟩

/-- Modelled from the spec: the graceful-stop path shared by
`CancelledRunFinally` and `StoppedRunFinally` — under graceful cancellation the
non-terminal DAG children are patched to cancel (finally children never are; a
graceful stop patches nothing); a failed patch keeps the run non-terminal with
reason `CouldntCancel`, a normal event and a requeue; otherwise the unstarted
DAG tasks are skipped, the finally sub-graph still runs once the DAG is
quiescent, and the run terminates as `Cancelled` only after the finally
sub-graph completes. -/
def reconcileGraceful (pr : PRState) (inp : ReconcileInput) : ReconcileResult :=
  let cancelMode := pr.specStatus = SpecStatus.cancelledRunFinally
  let toPatch :=
    if cancelMode then nonTerminalChildren inp.snapshot pr.spec.tasks else []
  let patches := toPatch.map Action.patchCancel
  if toPatch.all inp.patchOk then
    let mode : EvalMode := ⟨cancelMode, !cancelMode⟩
    let skips := dagSkips inp.snapshot mode pr.spec.tasks
    let dagDone := dagComplete inp.snapshot skips pr.spec.tasks
    let fSkips := if dagDone then finallySkips inp.snapshot pr.spec.finallyTasks else []
    let creates :=
      if dagDone then
        (pr.spec.finallyTasks.filter (fun t =>
          (inp.snapshot.childOf t.name).isNone && (fSkips.lookup t.name).isNone)).map
          (fun t => Action.createChild t.name)
      else []
    let allSkips := skips ++ fSkips
    let finallyDone :=
      dagDone && pr.spec.finallyTasks.all (fun t => taskDoneOrSkipped inp.snapshot fSkips t.name)
    if finallyDone then
      ⟨{ pr with
          condition := some ⟨.condFalse, reasonCancelled⟩
          completionTime := some inp.now
          skippedTasks := pr.skippedTasks ++ allSkips },
        patches ++ creates, [⟨.warning, reasonCancelled⟩], false⟩
    else
      let runningReason :=
        if cancelMode then reasonCancelledRunningFinally else reasonStoppedRunningFinally
      ⟨{ pr with
          condition := some ⟨.unknown, runningReason⟩
          skippedTasks := pr.skippedTasks ++ allSkips },
        patches ++ creates, [⟨.normal, runningReason⟩], false⟩
  else
    ⟨{ pr with condition := some ⟨.unknown, reasonCouldntCancel⟩ },
      patches, [⟨.normal, "PipelineRunCouldntCancel"⟩], true⟩

/-- Modelled from the spec: the ordinary evaluate/act/synthesize path — skip
classification over the DAG, creation of the ready frontier, finally tasks once
the DAG is quiescent, and the condition derived from the child buckets
(incomplete → Unknown `Running`; failed → False `Failed`; cancelled → False
`Cancelled`; otherwise True `Succeeded`), with `completionTime` assigned
exactly when the condition becomes terminal. -/
def reconcileNormal (pr : PRState) (inp : ReconcileInput) : ReconcileResult :=
  let skips := dagSkips inp.snapshot normalMode pr.spec.tasks
  let creates := (pr.spec.tasks.filter (readyToCreate inp.snapshot skips)).map
    (fun t => Action.createChild t.name)
  let dagDone := dagComplete inp.snapshot skips pr.spec.tasks
  let fSkips := if dagDone then finallySkips inp.snapshot pr.spec.finallyTasks else []
  let fCreates :=
    if dagDone then
      (pr.spec.finallyTasks.filter (fun t =>
        (inp.snapshot.childOf t.name).isNone && (fSkips.lookup t.name).isNone)).map
        (fun t => Action.createChild t.name)
    else []
  let allSkips := skips ++ fSkips
  let allTasks := pr.spec.tasks ++ pr.spec.finallyTasks
  let incomplete := allTasks.countP (fun t => !(taskDoneOrSkipped inp.snapshot allSkips t.name))
  let anyFailed := allTasks.any (fun t =>
    match inp.snapshot.childOf t.name with
    | some c => c.isFailed
    | none => false)
  let anyCancelled := allTasks.any (fun t =>
    match inp.snapshot.childOf t.name with
    | some c => c.isCancelled
    | none => false)
  if incomplete ≠ 0 then
    ⟨{ pr with
        condition := some ⟨.unknown, "Running"⟩
        skippedTasks := pr.skippedTasks ++ allSkips },
      creates ++ fCreates, [⟨.normal, "Running"⟩], false⟩
  else if anyFailed then
    ⟨{ pr with
        condition := some ⟨.condFalse, "Failed"⟩
        completionTime := some inp.now
        skippedTasks := pr.skippedTasks ++ allSkips },
      creates ++ fCreates, [⟨.warning, "Failed"⟩], false⟩
  else if anyCancelled then
    ⟨{ pr with
        condition := some ⟨.condFalse, reasonCancelled⟩
        completionTime := some inp.now
        skippedTasks := pr.skippedTasks ++ allSkips },
      creates ++ fCreates, [⟨.warning, reasonCancelled⟩], false⟩
  else
    ⟨{ pr with
        condition := some ⟨.condTrue, "Succeeded"⟩
        completionTime := some inp.now
        skippedTasks := pr.skippedTasks ++ allSkips },
      creates ++ fCreates, [⟨.normal, "Succeeded"⟩], false⟩

/-- Modelled from the spec: one reconcile pass (§4.6 stages) — a run whose
condition is already terminal is left untouched; a Pending spec-status records
reason `PipelineRunPending` and returns without writing a start time; otherwise
the start time is assigned on first reconcile and the pass dispatches to the
hard cancel, pipeline timeout, graceful cancel/stop, or ordinary path. -/
def reconcile (pr : PRState) (inp : ReconcileInput) : ReconcileResult :=
  if isTerminal pr.condition then ⟨pr, [], [], false⟩
  else if pr.specStatus = SpecStatus.pending then
    ⟨{ pr with condition := some ⟨.unknown, reasonPipelineRunPending⟩ }, [],
      [⟨.normal, reasonPipelineRunPending⟩], false⟩
  else
    let start := pr.startTime.getD inp.now
    let pr := { pr with startTime := some start }
    if pr.specStatus = SpecStatus.cancelled then
      reconcileHardStop pr inp gracefullyCancelledSkip reasonCancelled
        reasonCouldntCancel "PipelineRunCouldntCancel"
    else if hasTimedOut inp.now start pr.timeout then
      reconcileHardStop pr inp pipelineTimedOutSkip reasonPipelineRunTimeout
        reasonCouldntTimeOut "PipelineRunCouldntTimeOut"
    else if pr.specStatus = SpecStatus.cancelledRunFinally ||
        pr.specStatus = SpecStatus.stoppedRunFinally then
      reconcileGraceful pr inp
    else
      reconcileNormal pr inp

/-- Non-final condition reason of a child scheduled for another attempt. -/
def reasonToBeRetried : String := "ToBeRetried"

/-- Modelled from the spec: the retry decision for a failed child of a task
with `retries = N` — a failure with the `Cancelled` reason is never retried; a
failure with any other reason is archived into `retriesStatus` and the child is
reset (non-final) while fewer than `N` attempts are archived, otherwise the
failure is final. -/
def applyRetry (retries : Nat) (c : ChildStatus) : ChildStatus :=
  match c.cond with
  | some cd =>
    if cd.status = CondStatus.condFalse && cd.reason ≠ taskRunCancelledReason &&
        c.retriesStatus.length < retries then
      { cond := some ⟨.unknown, reasonToBeRetried⟩
        results := []
        retriesStatus := c.retriesStatus ++ [cd] }
    else c
  | none => c

end PipelineRun

namespace PipelineRun

/-- Modelled from the spec: the first matrix parameter seeds one single-entry
combination per listed value. -/
def initCombinations (name : String) (vals : List String) :
    List (List (String × String)) :=
  vals.map (fun v => [(name, v)])

/-- Modelled from the spec: fanning one matrix parameter out over the
combinations built so far — for each listed value, each existing combination is
extended with that value, so the parameters already processed (the earlier
listed ones) vary fastest in the resulting order. -/
def combinationsFanOut (cs : List (List (String × String))) (name : String)
    (vals : List String) : List (List (String × String)) :=
  if cs.isEmpty then initCombinations name vals
  else vals.flatMap (fun v => cs.map (fun c => c ++ [(name, v)]))

/-- Modelled from the spec: the matrix expander's cartesian product, processing
the matrix parameters in declaration order.  The resulting index order matches
the children pinned by the reconciler's matrix test (index 0,1,2 hold the
successive values of the first listed parameter). -/
def fanOut (m : List (String × List String)) : List (List (String × String)) :=
  m.foldl (fun cs p => combinationsFanOut cs p.1 p.2) []

/-- Size of the cartesian product of the matrix parameters. -/
def matrixProduct (m : List (String × List String)) : Nat :=
  (m.map (fun p => p.2.length)).prod

/-- Deterministic child name `<prName>-<taskName>-<index>`. -/
def childName (prName taskName : String) (i : Nat) : String :=
  prName ++ "-" ++ taskName ++ "-" ++ toString i

/-- The matrix children in index order: child `i` is named
`childName prName taskName i` and carries combination `i` of the fan-out. -/
def matrixChildren (prName taskName : String) (m : List (String × List String)) :
    List (String × List (String × String)) :=
  (List.range (fanOut m).length).map
    (fun i => (childName prName taskName i, (fanOut m).getD i []))

/-- Modelled from the spec: child creation for a matrix task, bounded by the
configured combinations cap; exceeding the cap creates nothing and fails the
run. -/
def createMatrixChildren (prName taskName : String) (m : List (String × List String))
    (cap : Nat) : Option (List (String × List (String × String))) :=
  if (fanOut m).length ≤ cap then some (matrixChildren prName taskName m) else none

/-- The combination at a given index with the FIRST listed parameter varying
fastest: parameter `j` steps once every `n₁ * ... * n_(j-1)` indices. -/
def combinationAt : List (String × List String) → Nat → List (String × String)
  | [], _ => []
  | (n, vs) :: rest, i => (n, vs.getD (i % vs.length) "") :: combinationAt rest (i / vs.length)

/-- The order the claim describes: cartesian iteration varying the LAST listed
parameter fastest. -/
def combinationAtLastFastest (m : List (String × List String)) (i : Nat) :
    List (String × String) :=
  (combinationAt m.reverse i).reverse

/-- The matrix of `TestReconciler_PipelineTaskMatrix`. -/
def testMatrix : List (String × List String) :=
  [("platform", ["linux", "mac", "windows"]), ("browser", ["chrome", "safari", "firefox"])]

/-- The two-task pipeline of `TestReconcileCancelledFailsTaskRunCancellation`
(two independent DAG tasks, no finally). -/
def cancelTestSpec : PipelineSpec :=
  ⟨[⟨"hello-world-1", [], [], [], 0⟩, ⟨"hello-world-2", [], [], [], 0⟩], []⟩

/-- The pipeline-run of `TestReconcileCancelledFailsTaskRunCancellation` in the
graceful-cancellation case: running condition, started, spec-status
`CancelledRunFinally`. -/
def prFailsToCancel : PRState :=
  ⟨.cancelledRunFinally, cancelTestSpec, 0, some 0, none, some ⟨.unknown, "Running"⟩, []⟩

/-- The same pipeline-run with the hard `Cancelled` spec-status. -/
def prFailsToCancelHard : PRState :=
  ⟨.cancelled, cancelTestSpec, 0, some 0, none, some ⟨.unknown, "Running"⟩, []⟩

/-- Snapshot of `TestReconcileCancelledFailsTaskRunCancellation`: one running
child for `hello-world-1`. -/
def snapOneRunning : Snapshot :=
  ⟨[("hello-world-1", ⟨some ⟨.unknown, "Running"⟩, [], []⟩)]⟩

/-- The six-task DAG of `TestReconcileWithWhenExpressions`: `a` has a false
`when`; `b` and `d` run after skipped parents; `c` has its own false `when`;
`e` references a result of the skipped `a`; `f` runs after `e`. -/
def whenTestTasks : List PipelineTask :=
  [⟨"a-task", [], [⟨.lit "foo", "in", ["bar"]⟩], [], 0⟩,
   ⟨"b-task", ["a-task"], [], [], 0⟩,
   ⟨"c-task", ["a-task"], [⟨.lit "foo", "in", ["bar"]⟩], [], 0⟩,
   ⟨"d-task", ["c-task"], [], [], 0⟩,
   ⟨"e-task", [], [⟨.resultRef "a-task" "aResult", "in", ["aResultValue"]⟩], [], 0⟩,
   ⟨"f-task", ["e-task"], [], [], 0⟩]

/-- The pipeline of `TestReconcileOnCancelledRunFinallyPipelineRunWithFinalTask`:
two chained DAG tasks and one finally task. -/
def gracefulFinallySpec : PipelineSpec :=
  ⟨[⟨"hello-world-1", [], [], [], 0⟩, ⟨"hello-world-2", ["hello-world-1"], [], [], 0⟩],
   [⟨"final-task-1", [], [], [], 0⟩]⟩

/-- The gracefully cancelled pipeline-run of that test (nothing started yet). -/
def prGracefulFinally : PRState :=
  ⟨.cancelledRunFinally, gracefulFinallySpec, 0, some 0, none, none, []⟩

end PipelineRun

/-- The fan-out of the test matrix matches, element for element, the nine
expected task-runs pinned in `TestReconciler_PipelineTaskMatrix` (index 0,1,2
carry platform linux, mac, windows with browser chrome, and so on). -/
theorem fanOut_testMatrix_eq : PipelineRun.fanOut PipelineRun.testMatrix =
    [[("platform", "linux"), ("browser", "chrome")],
     [("platform", "mac"), ("browser", "chrome")],
     [("platform", "windows"), ("browser", "chrome")],
     [("platform", "linux"), ("browser", "safari")],
     [("platform", "mac"), ("browser", "safari")],
     [("platform", "windows"), ("browser", "safari")],
     [("platform", "linux"), ("browser", "firefox")],
     [("platform", "mac"), ("browser", "firefox")],
     [("platform", "windows"), ("browser", "firefox")]] := by decide

/-- The deterministic child name of index 3 for the test's run and task. -/
theorem childName_testMatrix_eq : PipelineRun.childName "pr" "platforms-and-browsers" 3 =
    "pr-platforms-and-browsers-3" := by decide

namespace PipelineRun

theorem getD_map_append_single {α : Type} [Inhabited α] (cs : List (List α)) (s : List α)
    (i : Nat) (h : i < cs.length) :
    (cs.map (fun c => c ++ s)).getD i [] = cs.getD i [] ++ s := by
  induction cs generalizing i with
  | nil => simp at h
  | cons c cs ih =>
    cases i with
    | zero => simp
    | succ j =>
      simp only [List.map_cons, List.getD_cons_succ]
      exact ih j (by simpa using h)

theorem getD_map_singleton (vs : List String) (n : String) (j : Nat) (h : j < vs.length) :
    (vs.map (fun v => [(n, v)])).getD j [] = [(n, vs.getD j "")] := by
  induction vs generalizing j with
  | nil => simp at h
  | cons v vs ih =>
    cases j with
    | zero => simp
    | succ j =>
      simp only [List.map_cons, List.getD_cons_succ]
      exact ih j (by simpa using h)

theorem fanOutStep_length (vs : List String) (cs : List (List (String × String))) (n : String) :
    (vs.flatMap (fun v => cs.map (fun c => c ++ [(n, v)]))).length = vs.length * cs.length := by
  induction vs with
  | nil => simp
  | cons v vs ih =>
    rw [List.flatMap_cons, List.length_append, List.length_map, ih, List.length_cons]
    ring

theorem fanOutStep_getD (vs : List String) (cs : List (List (String × String))) (n : String)
    (i : Nat) (h : i < vs.length * cs.length) :
    (vs.flatMap (fun v => cs.map (fun c => c ++ [(n, v)]))).getD i [] =
      cs.getD (i % cs.length) [] ++ [(n, vs.getD (i / cs.length) "")] := by
  induction vs generalizing i with
  | nil => simp at h
  | cons v vs ih =>
    rw [List.flatMap_cons]
    by_cases hi : i < cs.length
    · rw [List.getD_append _ _ _ _ (by simpa using hi),
        getD_map_append_single cs _ i hi, Nat.mod_eq_of_lt hi, Nat.div_eq_of_lt hi]
      simp
    · push_neg at hi
      have hcs : 0 < cs.length := by
        rcases Nat.eq_zero_or_pos cs.length with h0 | h0
        · rw [h0, Nat.mul_zero] at h; omega
        · exact h0
      have hij : i = (i - cs.length) + cs.length := by omega
      have hsub : i - cs.length < vs.length * cs.length := by
        rw [List.length_cons, Nat.succ_mul] at h
        omega
      rw [List.getD_append_right _ _ _ _ (by simpa using hi), List.length_map]
      rw [ih (i - cs.length) hsub]
      have e1 : i % cs.length = (i - cs.length) % cs.length := by
        conv_lhs => rw [hij]
        rw [Nat.add_mod_right]
      have e2 : i / cs.length = (i - cs.length) / cs.length + 1 := by
        conv_lhs => rw [hij]
        rw [Nat.add_div_right _ hcs]
      rw [e1, e2]
      simp

theorem matrixProduct_cons (p : String × List String) (rest : List (String × List String)) :
    matrixProduct (p :: rest) = p.2.length * matrixProduct rest := by
  simp [matrixProduct]

theorem fanOut_foldl_length :
    ∀ (m : List (String × List String)) (acc : List (List (String × String))),
      (∀ p ∈ m, p.2 ≠ []) → acc ≠ [] →
      (m.foldl (fun cs p => combinationsFanOut cs p.1 p.2) acc).length =
        acc.length * matrixProduct m := by
  intro m
  induction m with
  | nil => intro acc _ _; simp [matrixProduct]
  | cons p rest ih =>
    intro acc hne hacc
    rw [List.foldl_cons]
    have hstep : combinationsFanOut acc p.1 p.2 =
        p.2.flatMap (fun v => acc.map (fun c => c ++ [(p.1, v)])) := by
      simp [combinationsFanOut, List.isEmpty_iff, hacc]
    have hp2 : p.2 ≠ [] := hne p (by simp)
    have hlen : (combinationsFanOut acc p.1 p.2).length = p.2.length * acc.length := by
      rw [hstep, fanOutStep_length]
    have hacc' : combinationsFanOut acc p.1 p.2 ≠ [] := by
      intro hnil
      have h0 : p.2.length * acc.length = 0 := by
        rw [← hlen, hnil, List.length_nil]
      rcases Nat.mul_eq_zero.mp h0 with h1 | h1
      · exact hp2 (List.length_eq_zero.mp h1)
      · exact hacc (List.length_eq_zero.mp h1)
    rw [ih _ (fun q hq => hne q (by simp [hq])) hacc', hlen, matrixProduct_cons]
    ring

theorem fanOut_foldl_getD :
    ∀ (m : List (String × List String)) (acc : List (List (String × String))) (i : Nat),
      (∀ p ∈ m, p.2 ≠ []) → acc ≠ [] → i < acc.length * matrixProduct m →
      (m.foldl (fun cs p => combinationsFanOut cs p.1 p.2) acc).getD i [] =
        acc.getD (i % acc.length) [] ++ combinationAt m (i / acc.length) := by
  intro m
  induction m with
  | nil =>
    intro acc i _ hacc hi
    simp only [matrixProduct, List.map_nil, List.prod_nil, Nat.mul_one] at hi
    simp [combinationAt, Nat.mod_eq_of_lt hi]
  | cons p rest ih =>
    obtain ⟨pn, pv⟩ := p
    intro acc i hne hacc hi
    rw [List.foldl_cons]
    have hstep : combinationsFanOut acc pn pv =
        pv.flatMap (fun v => acc.map (fun c => c ++ [(pn, v)])) := by
      simp [combinationsFanOut, List.isEmpty_iff, hacc]
    have hp2 : pv ≠ [] := by
      have := hne (pn, pv) (by simp)
      simpa using this
    have hB : 0 < pv.length := List.length_pos.mpr hp2
    have hL : 0 < acc.length := List.length_pos.mpr hacc
    have hlen : (combinationsFanOut acc pn pv).length = pv.length * acc.length := by
      rw [hstep, fanOutStep_length]
    have hacc' : combinationsFanOut acc pn pv ≠ [] := by
      intro hnil
      have h0 : pv.length * acc.length = 0 := by
        rw [← hlen, hnil, List.length_nil]
      rcases Nat.mul_eq_zero.mp h0 with h1 | h1
      · exact hp2 (List.length_eq_zero.mp h1)
      · exact hacc (List.length_eq_zero.mp h1)
    have hi' : i < (combinationsFanOut acc pn pv).length * matrixProduct rest := by
      rw [hlen]
      rw [matrixProduct_cons] at hi
      simp only at hi
      calc i < acc.length * (pv.length * matrixProduct rest) := hi
        _ = pv.length * acc.length * matrixProduct rest := by ring
    rw [ih _ i (fun q hq => hne q (by simp [hq])) hacc' hi', hlen]
    have hj : i % (pv.length * acc.length) < pv.length * acc.length :=
      Nat.mod_lt _ (by positivity)
    rw [hstep, fanOutStep_getD _ _ _ _ hj]
    have h1 : i % (pv.length * acc.length) % acc.length = i % acc.length :=
      Nat.mod_mod_of_dvd i (dvd_mul_left acc.length pv.length)
    have h2 : i % (pv.length * acc.length) / acc.length = i / acc.length % pv.length := by
      rw [Nat.mul_comm pv.length acc.length, Nat.mod_mul_right_div_self]
    have h3 : i / (pv.length * acc.length) = i / acc.length / pv.length := by
      rw [Nat.div_div_eq_div_mul, Nat.mul_comm]
    rw [h1, h2, h3, combinationAt]
    simp

theorem fanOut_length (m : List (String × List String)) (hm : m ≠ [])
    (h : ∀ p ∈ m, p.2 ≠ []) : (fanOut m).length = matrixProduct m := by
  match m, hm with
  | p :: rest, _ =>
    have hp2 : p.2 ≠ [] := h p (by simp)
    unfold fanOut
    rw [List.foldl_cons]
    have hinit : combinationsFanOut [] p.1 p.2 = initCombinations p.1 p.2 := by
      simp [combinationsFanOut]
    rw [hinit]
    have hne : initCombinations p.1 p.2 ≠ [] := by
      simp [initCombinations, hp2]
    rw [fanOut_foldl_length rest _ (fun q hq => h q (by simp [hq])) hne]
    simp [initCombinations, matrixProduct_cons]

theorem fanOut_getD (m : List (String × List String)) (hm : m ≠ [])
    (h : ∀ p ∈ m, p.2 ≠ []) (i : Nat) (hi : i < matrixProduct m) :
    (fanOut m).getD i [] = combinationAt m i := by
  match m, hm with
  | (pn, pv) :: rest, _ =>
    have hp2 : pv ≠ [] := by
      have := h (pn, pv) (by simp)
      simpa using this
    have hB : 0 < pv.length := List.length_pos.mpr hp2
    unfold fanOut
    rw [List.foldl_cons]
    have hinit : combinationsFanOut [] pn pv = initCombinations pn pv := by
      simp [combinationsFanOut]
    rw [hinit]
    have hne : initCombinations pn pv ≠ [] := by
      simp [initCombinations, hp2]
    have hlen : (initCombinations pn pv).length = pv.length := by
      simp [initCombinations]
    have hi' : i < (initCombinations pn pv).length * matrixProduct rest := by
      rw [hlen]
      rw [matrixProduct_cons] at hi
      simpa using hi
    rw [fanOut_foldl_getD rest _ i (fun q hq => h q (by simp [hq])) hne hi', hlen]
    rw [initCombinations, getD_map_singleton _ _ _ (Nat.mod_lt _ hB), combinationAt]
    simp

end PipelineRun

namespace PipelineRun

/-- C1 (amended): for every matrix task whose parameter cross-product is
within the configured cap, the reconciler creates exactly one child per
cartesian combination, each named `<prName>-<taskName>-<index>`, with a stable
index order in which cartesian iteration varies the FIRST listed matrix
parameter fastest: combination `i` assigns the `j`-th listed parameter its
`(i / (n₁ * ⋯ * n_(j-1))) % n_j`-th value, which is what `combinationAt`
computes. -/
theorem matrix_children_one_per_combination (prName taskName : String)
    (m : List (String × List String)) (cap : Nat) (hm : m ≠ [])
    (hvals : ∀ p ∈ m, p.2 ≠ []) (hcap : matrixProduct m ≤ cap) :
    createMatrixChildren prName taskName m cap = some (matrixChildren prName taskName m) ∧
    (matrixChildren prName taskName m).length = matrixProduct m ∧
    (∀ i, i < matrixProduct m →
      (matrixChildren prName taskName m).getD i ("", []) =
        (childName prName taskName i, combinationAt m i)) := by
  have hlen := fanOut_length m hm hvals
  refine ⟨?_, ?_, ?_⟩
  · unfold createMatrixChildren
    rw [hlen, if_pos hcap]
  · unfold matrixChildren
    rw [List.length_map, List.length_range, hlen]
  · intro i hi
    have hi' : i < (fanOut m).length := by rw [hlen]; exact hi
    unfold matrixChildren
    rw [List.getD_eq_getElem?_getD, List.getElem?_map, List.getElem?_range hi']
    simp only [Option.map_some', Option.getD_some]
    rw [fanOut_getD m hm hvals i hi]

/-- C1 counterexample: on the matrix of `TestReconciler_PipelineTaskMatrix`
(`platform=[linux,mac,windows]` listed first, `browser=[chrome,safari,firefox]`
second) the child at index 1 carries `(platform=mac, browser=chrome)` — the
first listed parameter varied — whereas varying the LAST listed parameter
fastest, as the claim states, would put `(platform=linux, browser=safari)`
there. -/
theorem matrix_last_fastest_counterexample :
    (matrixChildren "pr" "platforms-and-browsers" testMatrix).getD 1 ("", []) =
      ("pr-platforms-and-browsers-1", [("platform", "mac"), ("browser", "chrome")]) ∧
    combinationAtLastFastest testMatrix 1 = [("platform", "linux"), ("browser", "safari")] ∧
    (matrixChildren "pr" "platforms-and-browsers" testMatrix).getD 1 ("", []) ≠
      ("pr-platforms-and-browsers-1", combinationAtLastFastest testMatrix 1) := by
  decide

/-- Witness for `matrix_children_one_per_combination` at the matrix and cap of
`TestReconciler_PipelineTaskMatrix`. -/
theorem matrix_children_one_per_combination_witness :
    createMatrixChildren "pr" "platforms-and-browsers" testMatrix 10 =
      some (matrixChildren "pr" "platforms-and-browsers" testMatrix) ∧
    (matrixChildren "pr" "platforms-and-browsers" testMatrix).length =
      matrixProduct testMatrix ∧
    (∀ i, i < matrixProduct testMatrix →
      (matrixChildren "pr" "platforms-and-browsers" testMatrix).getD i ("", []) =
        (childName "pr" "platforms-and-browsers" i, combinationAt testMatrix i)) :=
  matrix_children_one_per_combination "pr" "platforms-and-browsers" testMatrix 10
    (by decide) (by decide) (by decide)

end PipelineRun

namespace Cluster

theorem populate_invalid_kind (conf : ResolverConfig) (params : List Param) (k : String)
    (hk : kindAfterDefault conf params = some k) (h1 : k ≠ "task") (h2 : k ≠ "pipeline") :
    populateParamsWithDefaults conf params = .error (.unknownKind k) := by
  unfold populateParamsWithDefaults
  rw [hk]
  simp [h1, h2]

theorem populate_missing (conf : ResolverConfig) (params : List Param)
    (hkind : ∀ k, kindAfterDefault conf params = some k → k = "task" ∨ k = "pipeline")
    (hmiss : nameGiven params = none ∨ namespaceAfterDefault conf params = none) :
    populateParamsWithDefaults conf params =
      .error (.missingParams
        (((if (kindAfterDefault conf params).isNone then [KindParam] else []) ++
          (if (nameGiven params).isNone then [NameParam] else [])) ++
          (if (namespaceAfterDefault conf params).isNone then [NamespaceParam] else []))) := by
  have hafter : populateParamsWithDefaults.populateAfterKind conf params
      (kindAfterDefault conf params)
      (if (kindAfterDefault conf params).isNone then [KindParam] else []) =
      .error (.missingParams
        (((if (kindAfterDefault conf params).isNone then [KindParam] else []) ++
          (if (nameGiven params).isNone then [NameParam] else [])) ++
          (if (namespaceAfterDefault conf params).isNone then [NamespaceParam] else []))) := by
    unfold populateParamsWithDefaults.populateAfterKind
    have hne : (((if (kindAfterDefault conf params).isNone then [KindParam] else []) ++
        (if (nameGiven params).isNone then [NameParam] else [])) ++
        (if (namespaceAfterDefault conf params).isNone then [NamespaceParam] else [])) ≠ [] := by
      rcases hmiss with h | h <;> simp [h]
    simp only []
    rw [if_pos hne]
  unfold populateParamsWithDefaults
  cases hk : kindAfterDefault conf params with
  | none =>
    rw [hk] at hafter
    simpa [hk] using hafter
  | some k =>
    rcases hkind k hk with h | h <;>
    · rw [hk] at hafter
      simpa [hk, h] using hafter

end Cluster

namespace Cluster

theorem validate_resolve_of_populate_error (conf : ResolverConfig) (params : List Param)
    (store : ClusterStore) (e : ResolverError)
    (h : populateParamsWithDefaults conf params = .error e) :
    validateParams true conf params = .error e ∧
    resolve true conf store params = (.error e, []) := by
  unfold validateParams resolve
  rw [h]
  simp

/-- C9 (amended): parameter resolution rejects a kind that, after applying
the configured default, is neither `task` nor `pipeline`; and when the name or
namespace parameter is absent or empty with no configured default — and the
kind did not already fail validation — it returns one `missing required params`
error naming every missing parameter (kind included when it too is absent).
In both cases `ValidateParams` and `Resolve` fail with that same error and
`Resolve` performs no store fetch. -/
theorem resolver_param_validation (conf : ResolverConfig) (params : List Param)
    (store : ClusterStore) :
    (∀ k, kindAfterDefault conf params = some k → k ≠ "task" → k ≠ "pipeline" →
      populateParamsWithDefaults conf params = .error (.unknownKind k) ∧
      validateParams true conf params = .error (.unknownKind k) ∧
      resolve true conf store params = (.error (.unknownKind k), [])) ∧
    ((∀ k, kindAfterDefault conf params = some k → k = "task" ∨ k = "pipeline") →
      (nameGiven params = none ∨ namespaceAfterDefault conf params = none) →
      populateParamsWithDefaults conf params =
        .error (.missingParams
          (((if (kindAfterDefault conf params).isNone then [KindParam] else []) ++
            (if (nameGiven params).isNone then [NameParam] else [])) ++
            (if (namespaceAfterDefault conf params).isNone then [NamespaceParam] else []))) ∧
      validateParams true conf params =
        .error (.missingParams
          (((if (kindAfterDefault conf params).isNone then [KindParam] else []) ++
            (if (nameGiven params).isNone then [NameParam] else [])) ++
            (if (namespaceAfterDefault conf params).isNone then [NamespaceParam] else []))) ∧
      resolve true conf store params =
        (.error (.missingParams
          (((if (kindAfterDefault conf params).isNone then [KindParam] else []) ++
            (if (nameGiven params).isNone then [NameParam] else [])) ++
            (if (namespaceAfterDefault conf params).isNone then [NamespaceParam] else []))),
          [])) := by
  constructor
  · intro k hk h1 h2
    have hp := populate_invalid_kind conf params k hk h1 h2
    have hv := validate_resolve_of_populate_error conf params store _ hp
    exact ⟨hp, hv.1, hv.2⟩
  · intro hkind hmiss
    have hp := populate_missing conf params hkind hmiss
    have hv := validate_resolve_of_populate_error conf params store _ hp
    exact ⟨hp, hv.1, hv.2⟩

/-- C9 counterexample to the claim as stated: with `kind=foo` and no name
or namespace parameter (and an empty configuration), the name and namespace
are missing with no configured default, yet the returned error is the
unknown-kind error, not an error naming the missing parameters. -/
theorem resolver_missing_params_counterexample :
    isMissingParamsError
      (populateParamsWithDefaults ⟨none, none, "", ""⟩ [⟨"kind", "foo"⟩]) = false ∧
    populateParamsWithDefaults ⟨none, none, "", ""⟩ [⟨"kind", "foo"⟩] =
      .error (.unknownKind "foo") := by
  decide

/-- Witness for `resolver_param_validation`: with no parameters at all and an
empty configuration, kind, name and namespace are reported missing in one
error, and `Resolve` fails without fetching. -/
theorem resolver_param_validation_witness :
    populateParamsWithDefaults ⟨none, none, "", ""⟩ [] =
      .error (.missingParams ["kind", "name", "namespace"]) ∧
    resolve true ⟨none, none, "", ""⟩ ⟨fun _ _ => none, fun _ _ => none⟩ [] =
      (.error (.missingParams ["kind", "name", "namespace"]), []) := by
  have h := (resolver_param_validation ⟨none, none, "", ""⟩ []
      ⟨fun _ _ => none, fun _ _ => none⟩).2
    (by intro k hk; simp [kindAfterDefault, paramsMapLookup] at hk)
    (Or.inl (by decide))
  refine ⟨?_, ?_⟩
  · have := h.1
    simpa [kindAfterDefault, nameGiven, namespaceAfterDefault, paramsMapLookup,
      KindParam, NameParam, NamespaceParam] using this
  · have := h.2.2
    simpa [kindAfterDefault, nameGiven, namespaceAfterDefault, paramsMapLookup,
      KindParam, NameParam, NamespaceParam] using this

set_option maxRecDepth 10000 in
/-- C10: the blocked-namespaces check takes precedence over the
allowed-namespaces check — a namespace in the non-empty blocked list is
rejected with the blocked error no matter what the allowed list contains (in
particular even when it is also in the allowed list); an empty
allowed-namespaces configuration permits every non-blocked namespace; and list
membership is exact string equality against the comma-separated segments.  The
last conjunct shows the precedence end-to-end through
`populateParamsWithDefaults`. -/
theorem resolver_namespace_precedence (conf : ResolverConfig) (k nm ns v l : String) :
    (conf.blockedNamespaces ≠ "" → isInCommaSeparatedList ns conf.blockedNamespaces = true →
      checkNamespaceAccess conf ns = .error (.blockedNamespace ns)) ∧
    (conf.allowedNamespaces = "" →
      (conf.blockedNamespaces = "" ∨ isInCommaSeparatedList ns conf.blockedNamespaces = false) →
      checkNamespaceAccess conf ns = .ok ()) ∧
    (isInCommaSeparatedList v l = true ↔ v ∈ splitOnComma l) ∧
    ((k = "task" ∨ k = "pipeline") → nm ≠ "" → ns ≠ "" →
      conf.blockedNamespaces ≠ "" → isInCommaSeparatedList ns conf.blockedNamespaces = true →
      populateParamsWithDefaults conf
        [⟨KindParam, k⟩, ⟨NameParam, nm⟩, ⟨NamespaceParam, ns⟩] =
        .error (.blockedNamespace ns)) := by
  have hblocked : conf.blockedNamespaces ≠ "" →
      isInCommaSeparatedList ns conf.blockedNamespaces = true →
      checkNamespaceAccess conf ns = .error (.blockedNamespace ns) := by
    intro hb hm
    unfold checkNamespaceAccess
    simp [hb, hm]
  refine ⟨hblocked, ?_, ?_, ?_⟩
  · intro ha hnb
    unfold checkNamespaceAccess
    rcases hnb with h | h <;> simp [ha, h]
  · unfold isInCommaSeparatedList
    constructor
    · intro h
      rcases List.any_eq_true.mp h with ⟨s, hs, he⟩
      simp only [decide_eq_true_eq] at he
      rw [← he]
      exact hs
    · intro h
      exact List.any_eq_true.mpr ⟨v, h, by simp⟩
  · intro hk hn hns hb hm
    have hlookk : paramsMapLookup [⟨KindParam, k⟩, ⟨NameParam, nm⟩, ⟨NamespaceParam, ns⟩]
        KindParam = some k := by
      simp [paramsMapLookup, KindParam, NameParam, NamespaceParam]
    have hlookn : paramsMapLookup [⟨KindParam, k⟩, ⟨NameParam, nm⟩, ⟨NamespaceParam, ns⟩]
        NameParam = some nm := by
      simp [paramsMapLookup, KindParam, NameParam, NamespaceParam]
    have hlookns : paramsMapLookup [⟨KindParam, k⟩, ⟨NameParam, nm⟩, ⟨NamespaceParam, ns⟩]
        NamespaceParam = some ns := by
      simp [paramsMapLookup, KindParam, NameParam, NamespaceParam]
    have hkne : k ≠ "" := by rcases hk with h | h <;> simp [h]
    have hkad : kindAfterDefault conf [⟨KindParam, k⟩, ⟨NameParam, nm⟩, ⟨NamespaceParam, ns⟩] =
        some k := by
      unfold kindAfterDefault
      rw [hlookk]
      simp [hkne]
    have hng : nameGiven [⟨KindParam, k⟩, ⟨NameParam, nm⟩, ⟨NamespaceParam, ns⟩] = some nm := by
      unfold nameGiven
      rw [hlookn]
      simp [hn]
    have hnsd : namespaceAfterDefault conf
        [⟨KindParam, k⟩, ⟨NameParam, nm⟩, ⟨NamespaceParam, ns⟩] = some ns := by
      unfold namespaceAfterDefault
      rw [hlookns]
      simp [hns]
    unfold populateParamsWithDefaults
    rw [hkad]
    have hvalid : (k ≠ "task" && k ≠ "pipeline") = false := by
      rcases hk with h | h <;> simp [h]
    simp only [hkad, Option.isNone_some, hvalid, Bool.false_eq_true, if_false,
      Bool.not_eq_true]
    unfold populateParamsWithDefaults.populateAfterKind
    rw [hng, hnsd]
    simp only [Option.isNone_some, Bool.false_eq_true, if_false, List.append_nil,
      List.nil_append, Option.getD_some, hblocked hb hm]
    simp

end Cluster

namespace Cluster

/-- Witness for `resolver_namespace_precedence`: namespace `ns2` appears in the
blocked list `ns1,ns2` and also in the allowed list `ns2,ns3`, and the request
is rejected with the blocked error. -/
theorem resolver_namespace_precedence_witness :
    checkNamespaceAccess ⟨none, none, "ns1,ns2", "ns2,ns3"⟩ "ns2" =
      .error (.blockedNamespace "ns2") ∧
    isInCommaSeparatedList "ns2" "ns2,ns3" = true ∧
    populateParamsWithDefaults ⟨none, none, "ns1,ns2", "ns2,ns3"⟩
      [⟨KindParam, "task"⟩, ⟨NameParam, "mytask"⟩, ⟨NamespaceParam, "ns2"⟩] =
      .error (.blockedNamespace "ns2") := by
  refine ⟨?_, by decide, ?_⟩
  · exact (resolver_namespace_precedence ⟨none, none, "ns1,ns2", "ns2,ns3"⟩
      "task" "mytask" "ns2" "x" "y").1 (by decide) (by decide)
  · exact (resolver_namespace_precedence ⟨none, none, "ns1,ns2", "ns2,ns3"⟩
      "task" "mytask" "ns2" "x" "y").2.2.2 (Or.inl rfl) (by decide) (by decide)
      (by decide) (by decide)

end Cluster

namespace PipelineRun

theorem all_eq_false_of_mem {l : List String} {f : String → Bool} {c : String}
    (hc : c ∈ l) (hf : f c = false) : l.all f = false := by
  cases hall : l.all f with
  | false => rfl
  | true =>
    have := List.all_eq_true.mp hall c hc
    rw [hf] at this
    cases this

theorem hardStop_condition (pr : PRState) (inp : ReconcileInput)
    (a b c d : String) :
    ((reconcileHardStop pr inp a b c d).state.condition = some ⟨.condFalse, b⟩ ∧
      (reconcileHardStop pr inp a b c d).state.completionTime = some inp.now) ∨
    ((reconcileHardStop pr inp a b c d).state.condition = some ⟨.unknown, c⟩ ∧
      (reconcileHardStop pr inp a b c d).state.completionTime = pr.completionTime) := by
  unfold reconcileHardStop
  dsimp only
  split
  · left; exact ⟨rfl, rfl⟩
  · right; exact ⟨rfl, rfl⟩

theorem graceful_condition (pr : PRState) (inp : ReconcileInput) :
    ((reconcileGraceful pr inp).state.condition = some ⟨.condFalse, reasonCancelled⟩ ∧
      (reconcileGraceful pr inp).state.completionTime = some inp.now) ∨
    (∃ r, (reconcileGraceful pr inp).state.condition = some ⟨.unknown, r⟩ ∧
      (reconcileGraceful pr inp).state.completionTime = pr.completionTime) := by
  unfold reconcileGraceful
  dsimp only
  split_ifs <;>
    first
      | exact Or.inl ⟨rfl, rfl⟩
      | exact Or.inr ⟨_, rfl, rfl⟩

theorem normal_condition (pr : PRState) (inp : ReconcileInput) :
    ((reconcileNormal pr inp).state.condition = some ⟨.unknown, "Running"⟩ ∧
      (reconcileNormal pr inp).state.completionTime = pr.completionTime) ∨
    ((∃ cd, (reconcileNormal pr inp).state.condition = some cd ∧ cd.status ≠ CondStatus.unknown) ∧
      (reconcileNormal pr inp).state.completionTime = some inp.now) := by
  unfold reconcileNormal
  dsimp only
  split_ifs <;>
    first
      | exact Or.inl ⟨rfl, rfl⟩
      | exact Or.inr ⟨⟨_, rfl, by decide⟩, rfl⟩

/-- C3: a pipeline-run whose spec-status is Pending is admitted with no
child creation, an untouched (null) start time, and condition
(Unknown, `PipelineRunPending`). -/
theorem reconcile_pending (pr : PRState) (inp : ReconcileInput)
    (hp : pr.specStatus = SpecStatus.pending) (ht : isTerminal pr.condition = false) :
    (reconcile pr inp).actions = [] ∧
    (reconcile pr inp).state.startTime = pr.startTime ∧
    (reconcile pr inp).state.condition = some ⟨.unknown, reasonPipelineRunPending⟩ := by
  unfold reconcile
  simp [hp, ht]

/-- Witness for `reconcile_pending`: the pending run of
`TestReconcileOnPendingPipelineRun` creates nothing, keeps a null start time
and reports reason `PipelineRunPending`. -/
theorem reconcile_pending_witness :
    (reconcile ⟨.pending, ⟨[⟨"hello-world-1", [], [], [], 0⟩], []⟩, 0, none, none, none, []⟩
        ⟨0, ⟨[]⟩, fun _ => true⟩).actions = [] ∧
    (reconcile ⟨.pending, ⟨[⟨"hello-world-1", [], [], [], 0⟩], []⟩, 0, none, none, none, []⟩
        ⟨0, ⟨[]⟩, fun _ => true⟩).state.startTime = none ∧
    (reconcile ⟨.pending, ⟨[⟨"hello-world-1", [], [], [], 0⟩], []⟩, 0, none, none, none, []⟩
        ⟨0, ⟨[]⟩, fun _ => true⟩).state.condition =
      some ⟨.unknown, reasonPipelineRunPending⟩ :=
  reconcile_pending ⟨.pending, ⟨[⟨"hello-world-1", [], [], [], 0⟩], []⟩, 0, none, none, none, []⟩
    ⟨0, ⟨[]⟩, fun _ => true⟩ rfl rfl

end PipelineRun

namespace PipelineRun

/-- C8: the pipeline-run condition is monotone — a run whose condition is
already terminal is left untouched by reconcile (no actions, no events, no
state change), so in particular a terminal run with `CompletionTime` set is a
no-op with no child creations; and a reconcile that moves a non-terminal run
to a terminal condition assigns `completionTime` in the same pass, so
True/False only ever appear together with a non-null completion time. -/
theorem reconcile_terminal_monotone (pr : PRState) (inp : ReconcileInput) :
    (isTerminal pr.condition = true → reconcile pr inp = ⟨pr, [], [], false⟩) ∧
    (isTerminal pr.condition = false →
      isTerminal (reconcile pr inp).state.condition = true →
      (reconcile pr inp).state.completionTime = some inp.now) := by
  constructor
  · intro h
    unfold reconcile
    simp [h]
  · intro h hterm
    unfold reconcile at hterm ⊢
    dsimp only at hterm ⊢
    split_ifs at hterm ⊢ with h1 h2 h3 h4 h5
    · rw [h] at h1
      cases h1
    · simp [isTerminal] at hterm
    · rcases hardStop_condition { pr with startTime := some (pr.startTime.getD inp.now) } inp
        gracefullyCancelledSkip reasonCancelled reasonCouldntCancel
        "PipelineRunCouldntCancel" with ⟨h1', h2'⟩ | ⟨h1', h2'⟩
      · exact h2'
      · rw [h1'] at hterm
        simp [isTerminal] at hterm
    · rcases hardStop_condition { pr with startTime := some (pr.startTime.getD inp.now) } inp
        pipelineTimedOutSkip reasonPipelineRunTimeout reasonCouldntTimeOut
        "PipelineRunCouldntTimeOut" with ⟨h1', h2'⟩ | ⟨h1', h2'⟩
      · exact h2'
      · rw [h1'] at hterm
        simp [isTerminal] at hterm
    · rcases graceful_condition { pr with startTime := some (pr.startTime.getD inp.now) } inp
        with ⟨h1', h2'⟩ | ⟨r, h1', h2'⟩
      · exact h2'
      · rw [h1'] at hterm
        simp [isTerminal] at hterm
    · rcases normal_condition { pr with startTime := some (pr.startTime.getD inp.now) } inp
        with ⟨h1', h2'⟩ | ⟨⟨cd, h1', hcd⟩, h2'⟩
      · rw [h1'] at hterm
        simp [isTerminal] at hterm
      · exact h2'

/-- Witness for `reconcile_terminal_monotone`: reconciling the already
succeeded run of `TestReconcileOnCompletedPipelineRun` is a no-op with no
creations, and a run whose empty pipeline completes gets its completion time
in the same pass. -/
theorem reconcile_terminal_monotone_witness :
    reconcile ⟨.unset, ⟨[⟨"hello-world-1", [], [], [], 0⟩], []⟩, 0, some 0, some 3,
        some ⟨.condTrue, "Succeeded"⟩, []⟩ ⟨7, ⟨[]⟩, fun _ => true⟩ =
      ⟨⟨.unset, ⟨[⟨"hello-world-1", [], [], [], 0⟩], []⟩, 0, some 0, some 3,
        some ⟨.condTrue, "Succeeded"⟩, []⟩, [], [], false⟩ ∧
    (reconcile ⟨.unset, ⟨[], []⟩, 0, some 0, none, some ⟨.unknown, "Running"⟩, []⟩
        ⟨7, ⟨[]⟩, fun _ => true⟩).state.completionTime = some 7 := by
  constructor
  · exact (reconcile_terminal_monotone ⟨.unset, ⟨[⟨"hello-world-1", [], [], [], 0⟩], []⟩, 0,
      some 0, some 3, some ⟨.condTrue, "Succeeded"⟩, []⟩ ⟨7, ⟨[]⟩, fun _ => true⟩).1 (by decide)
  · exact (reconcile_terminal_monotone ⟨.unset, ⟨[], []⟩, 0, some 0, none,
      some ⟨.unknown, "Running"⟩, []⟩ ⟨7, ⟨[]⟩, fun _ => true⟩).2 (by decide) (by decide)

end PipelineRun

namespace PipelineRun

/-- C6: a pipeline-level timeout triggers only strictly after the deadline
— elapsed time equal to the timeout does not trigger, strictly greater does —
and a zero timeout never triggers; a pass whose deadline has not elapsed (in
particular a zero timeout) proceeds down the ordinary path, where the run can
still become terminal for other reasons such as a failed child. -/
theorem pipeline_timeout_boundary (pr : PRState) (inp : ReconcileInput) (s : Nat) :
    (∀ now start timeout : Nat, now - start ≤ timeout →
      hasTimedOut now start timeout = false) ∧
    (∀ now start timeout : Nat, timeout ≠ 0 → now - start > timeout →
      hasTimedOut now start timeout = true) ∧
    (∀ now start : Nat, hasTimedOut now start 0 = false) ∧
    (isTerminal pr.condition = false → pr.specStatus = SpecStatus.unset →
      pr.startTime = some s → hasTimedOut inp.now s pr.timeout = false →
      reconcile pr inp = reconcileNormal { pr with startTime := some s } inp) := by
  have hnot : ∀ now start timeout : Nat, now - start ≤ timeout →
      hasTimedOut now start timeout = false := by
    intro now start timeout hle
    unfold hasTimedOut
    have hngt : ¬(now - start > timeout) := by omega
    simp [hngt]
  refine ⟨hnot, ?_, ?_, ?_⟩
  · intro now start timeout h0 hgt
    unfold hasTimedOut
    simp [h0, hgt]
  · intro now start
    unfold hasTimedOut
    simp
  · intro ht hu hst hto
    unfold reconcile
    dsimp only
    rw [hst]
    simp [ht, hu, hto]

end PipelineRun

namespace PipelineRun

/-- Witness for `pipeline_timeout_boundary`, following
`runTestReconcileWithPipelineResultsOnFailedPipelineRun`: elapsed time equal to
the timeout does not fire; one minute more does; a zero timeout never fires,
and the run with timeout `0` still terminates (False, `Failed`) through the
ordinary path because of its failed `b-task`. -/
theorem pipeline_timeout_boundary_witness :
    hasTimedOut 720 0 720 = false ∧
    hasTimedOut 721 0 720 = true ∧
    hasTimedOut 999 0 0 = false ∧
    reconcile ⟨.unset, ⟨[⟨"a-task", [], [], [], 0⟩, ⟨"b-task", [], [], [], 0⟩], []⟩, 0,
        some 0, none, some ⟨.unknown, "Running"⟩, []⟩
      ⟨100, ⟨[("a-task", ⟨some ⟨.condTrue, "Succeeded"⟩, [("aResult", "aResultValue")], []⟩),
        ("b-task", ⟨some ⟨.condFalse, "Failed"⟩, [], []⟩)]⟩, fun _ => true⟩ =
      reconcileNormal ⟨.unset, ⟨[⟨"a-task", [], [], [], 0⟩, ⟨"b-task", [], [], [], 0⟩], []⟩, 0,
        some 0, none, some ⟨.unknown, "Running"⟩, []⟩
      ⟨100, ⟨[("a-task", ⟨some ⟨.condTrue, "Succeeded"⟩, [("aResult", "aResultValue")], []⟩),
        ("b-task", ⟨some ⟨.condFalse, "Failed"⟩, [], []⟩)]⟩, fun _ => true⟩ ∧
    (reconcile ⟨.unset, ⟨[⟨"a-task", [], [], [], 0⟩, ⟨"b-task", [], [], [], 0⟩], []⟩, 0,
        some 0, none, some ⟨.unknown, "Running"⟩, []⟩
      ⟨100, ⟨[("a-task", ⟨some ⟨.condTrue, "Succeeded"⟩, [("aResult", "aResultValue")], []⟩),
        ("b-task", ⟨some ⟨.condFalse, "Failed"⟩, [], []⟩)]⟩, fun _ => true⟩).state.condition =
      some ⟨.condFalse, "Failed"⟩ := by
  have h := pipeline_timeout_boundary
    ⟨.unset, ⟨[⟨"a-task", [], [], [], 0⟩, ⟨"b-task", [], [], [], 0⟩], []⟩, 0,
      some 0, none, some ⟨.unknown, "Running"⟩, []⟩
    ⟨100, ⟨[("a-task", ⟨some ⟨.condTrue, "Succeeded"⟩, [("aResult", "aResultValue")], []⟩),
      ("b-task", ⟨some ⟨.condFalse, "Failed"⟩, [], []⟩)]⟩, fun _ => true⟩ 0
  refine ⟨h.1 720 0 720 (by omega), h.2.1 721 0 720 (by decide) (by omega),
    h.2.2.1 999 0, h.2.2.2 (by decide) rfl rfl (by decide), ?_⟩
  rw [h.2.2.2 (by decide) rfl rfl (by decide)]
  decide

end PipelineRun

namespace PipelineRun

/-- C2: when a cancel or timeout patch of a child fails, the pipeline-run
does not become terminal — its condition stays Unknown with reason
`CouldntCancel` (hard and graceful cancellation) or `CouldntTimeOut`
(timeout), its completion time is untouched, a normal event is emitted and the
key is requeued; a later pass in which every patch succeeds completes the
cancellation with the terminal `Cancelled` condition. -/
theorem cancel_patch_failure_nonterminal (pr : PRState) (inp inp2 : ReconcileInput)
    (c : String) (ht : isTerminal pr.condition = false) :
    (pr.specStatus = SpecStatus.cancelled →
      c ∈ nonTerminalChildren inp.snapshot (pr.spec.tasks ++ pr.spec.finallyTasks) →
      inp.patchOk c = false →
      (reconcile pr inp).state.condition = some ⟨.unknown, reasonCouldntCancel⟩ ∧
      (reconcile pr inp).state.completionTime = pr.completionTime ∧
      (reconcile pr inp).requeue = true ∧
      (reconcile pr inp).events = [⟨.normal, "PipelineRunCouldntCancel"⟩]) ∧
    (pr.specStatus = SpecStatus.cancelledRunFinally →
      hasTimedOut inp.now (pr.startTime.getD inp.now) pr.timeout = false →
      c ∈ nonTerminalChildren inp.snapshot pr.spec.tasks →
      inp.patchOk c = false →
      (reconcile pr inp).state.condition = some ⟨.unknown, reasonCouldntCancel⟩ ∧
      (reconcile pr inp).state.completionTime = pr.completionTime ∧
      (reconcile pr inp).requeue = true ∧
      (reconcile pr inp).events = [⟨.normal, "PipelineRunCouldntCancel"⟩]) ∧
    (pr.specStatus = SpecStatus.unset →
      hasTimedOut inp.now (pr.startTime.getD inp.now) pr.timeout = true →
      c ∈ nonTerminalChildren inp.snapshot (pr.spec.tasks ++ pr.spec.finallyTasks) →
      inp.patchOk c = false →
      (reconcile pr inp).state.condition = some ⟨.unknown, reasonCouldntTimeOut⟩ ∧
      (reconcile pr inp).state.completionTime = pr.completionTime ∧
      (reconcile pr inp).requeue = true ∧
      (reconcile pr inp).events = [⟨.normal, "PipelineRunCouldntTimeOut"⟩]) ∧
    (pr.specStatus = SpecStatus.cancelled →
      (∀ x, inp2.patchOk x = true) →
      (reconcile pr inp2).state.condition = some ⟨.condFalse, reasonCancelled⟩ ∧
      (reconcile pr inp2).state.completionTime = some inp2.now) := by
  refine ⟨?_, ?_, ?_, ?_⟩
  · intro hs hc hf
    have hred : reconcile pr inp =
        reconcileHardStop { pr with startTime := some (pr.startTime.getD inp.now) } inp
          gracefullyCancelledSkip reasonCancelled reasonCouldntCancel
          "PipelineRunCouldntCancel" := by
      unfold reconcile
      dsimp only
      simp [ht, hs]
    have hall : (nonTerminalChildren inp.snapshot
        (pr.spec.tasks ++ pr.spec.finallyTasks)).all inp.patchOk = false :=
      all_eq_false_of_mem hc hf
    rw [hred]
    unfold reconcileHardStop
    dsimp only
    simp [hall]
  · intro hs hto hc hf
    have hred : reconcile pr inp =
        reconcileGraceful { pr with startTime := some (pr.startTime.getD inp.now) } inp := by
      unfold reconcile
      dsimp only
      simp [ht, hs, hto]
    have hall : (nonTerminalChildren inp.snapshot pr.spec.tasks).all inp.patchOk = false :=
      all_eq_false_of_mem hc hf
    rw [hred]
    unfold reconcileGraceful
    dsimp only
    simp [hs, hall]
  · intro hs hto hc hf
    have hred : reconcile pr inp =
        reconcileHardStop { pr with startTime := some (pr.startTime.getD inp.now) } inp
          pipelineTimedOutSkip reasonPipelineRunTimeout reasonCouldntTimeOut
          "PipelineRunCouldntTimeOut" := by
      unfold reconcile
      dsimp only
      simp [ht, hs, hto]
    have hall : (nonTerminalChildren inp.snapshot
        (pr.spec.tasks ++ pr.spec.finallyTasks)).all inp.patchOk = false :=
      all_eq_false_of_mem hc hf
    rw [hred]
    unfold reconcileHardStop
    dsimp only
    simp [hall]
  · intro hs hok
    have hred : reconcile pr inp2 =
        reconcileHardStop { pr with startTime := some (pr.startTime.getD inp2.now) } inp2
          gracefullyCancelledSkip reasonCancelled reasonCouldntCancel
          "PipelineRunCouldntCancel" := by
      unfold reconcile
      dsimp only
      simp [ht, hs]
    have hall : (nonTerminalChildren inp2.snapshot
        (pr.spec.tasks ++ pr.spec.finallyTasks)).all inp2.patchOk = true :=
      List.all_eq_true.mpr (fun x _ => hok x)
    rw [hred]
    unfold reconcileHardStop
    dsimp only
    simp [hall]

/-- Witness for `cancel_patch_failure_nonterminal`, following
`TestReconcileCancelledFailsTaskRunCancellation`: the running child of the
gracefully cancelled run cannot be patched, so the run stays Unknown with
reason `CouldntCancel` and is requeued, and the hard-cancelled variant becomes
terminal `Cancelled` once a later pass patches successfully. -/
theorem cancel_patch_failure_nonterminal_witness :
    (reconcile prFailsToCancel ⟨5, snapOneRunning, fun _ => false⟩).state.condition =
      some ⟨.unknown, reasonCouldntCancel⟩ ∧
    (reconcile prFailsToCancel ⟨5, snapOneRunning, fun _ => false⟩).requeue = true ∧
    (reconcile prFailsToCancel ⟨5, snapOneRunning, fun _ => false⟩).events =
      [⟨.normal, "PipelineRunCouldntCancel"⟩] ∧
    (reconcile prFailsToCancelHard ⟨6, snapOneRunning, fun _ => true⟩).state.condition =
      some ⟨.condFalse, reasonCancelled⟩ ∧
    (reconcile prFailsToCancelHard ⟨6, snapOneRunning, fun _ => true⟩).state.completionTime =
      some 6 := by
  have h1 := (cancel_patch_failure_nonterminal prFailsToCancel
    ⟨5, snapOneRunning, fun _ => false⟩ ⟨5, snapOneRunning, fun _ => false⟩
    "hello-world-1" (by decide)).2.1 rfl (by decide) (by decide) (by decide)
  have h2 := (cancel_patch_failure_nonterminal prFailsToCancelHard
    ⟨6, snapOneRunning, fun _ => true⟩ ⟨6, snapOneRunning, fun _ => true⟩
    "hello-world-1" (by decide)).2.2.2 rfl (fun x => rfl)
  exact ⟨h1.1, h1.2.2.1, h1.2.2.2, h2.1, h2.2⟩

/-- C7: for a pipeline-task with `retries = N`, a child failure with a
non-Cancelled reason is archived into `retriesStatus` (prior attempts
preserved) and the child is reset non-final as long as fewer than `N` attempts
are archived — so the task survives up to the `N`-th failure and the
`(N+1)`-th failure (with `N` attempts already archived) leaves it finally
failed; a failure with the `Cancelled` reason is never retried. -/
theorem retry_behavior (n : Nat) (c : ChildStatus) (cd : Condition) :
    (c.cond = some cd → cd.status = CondStatus.condFalse →
      cd.reason ≠ taskRunCancelledReason → c.retriesStatus.length < n →
      applyRetry n c = ⟨some ⟨.unknown, reasonToBeRetried⟩, [], c.retriesStatus ++ [cd]⟩ ∧
      ChildStatus.isDone (applyRetry n c) = false) ∧
    (c.cond = some cd → n ≤ c.retriesStatus.length → applyRetry n c = c) ∧
    (c.cond = some cd → cd.reason = taskRunCancelledReason → applyRetry n c = c) := by
  refine ⟨?_, ?_, ?_⟩
  · intro hc hst hr hlen
    unfold applyRetry
    rw [hc]
    simp [hst, hr, hlen, ChildStatus.isDone]
  · intro hc hlen
    unfold applyRetry
    rw [hc]
    have : ¬(c.retriesStatus.length < n) := by omega
    simp [this]
  · intro hc hr
    unfold applyRetry
    rw [hc]
    simp [hr]

/-- Witness for `retry_behavior`, following `TestReconcileWithTimeoutAndRetry`:
a child with one archived failed attempt and a fresh failure is final for
`retries = 1` and is reset (with two archived attempts) for `retries = 2`, and
a cancelled failure is untouched. -/
theorem retry_behavior_witness :
    applyRetry 1 ⟨some ⟨.condFalse, "Failed"⟩, [], [⟨.condFalse, "Failed"⟩]⟩ =
      ⟨some ⟨.condFalse, "Failed"⟩, [], [⟨.condFalse, "Failed"⟩]⟩ ∧
    applyRetry 2 ⟨some ⟨.condFalse, "Failed"⟩, [], [⟨.condFalse, "Failed"⟩]⟩ =
      ⟨some ⟨.unknown, reasonToBeRetried⟩, [],
        [⟨.condFalse, "Failed"⟩, ⟨.condFalse, "Failed"⟩]⟩ ∧
    applyRetry 3 ⟨some ⟨.condFalse, taskRunCancelledReason⟩, [], []⟩ =
      ⟨some ⟨.condFalse, taskRunCancelledReason⟩, [], []⟩ := by
  refine ⟨?_, ?_, ?_⟩
  · exact (retry_behavior 1 ⟨some ⟨.condFalse, "Failed"⟩, [], [⟨.condFalse, "Failed"⟩]⟩
      ⟨.condFalse, "Failed"⟩).2.1 rfl (by decide)
  · exact ((retry_behavior 2 ⟨some ⟨.condFalse, "Failed"⟩, [], [⟨.condFalse, "Failed"⟩]⟩
      ⟨.condFalse, "Failed"⟩).1 rfl rfl (by decide) (by decide)).1
  · exact (retry_behavior 3 ⟨some ⟨.condFalse, taskRunCancelledReason⟩, [], []⟩
      ⟨.condFalse, taskRunCancelledReason⟩).2.2 rfl rfl

end PipelineRun

namespace PipelineRun

theorem classify_graceful (snap : Snapshot) (skips : List (String × String))
    (t : PipelineTask) :
    classifyDAGTask snap ⟨true, false⟩ skips t =
      if (snap.childOf t.name).isSome then none else some gracefullyCancelledSkip := by
  by_cases h : (snap.childOf t.name).isSome <;> simp [classifyDAGTask, h]

theorem dagSkips_graceful (snap : Snapshot) (tasks : List PipelineTask) :
    dagSkips snap ⟨true, false⟩ tasks =
      tasks.filterMap (fun t =>
        if (snap.childOf t.name).isSome then none
        else some (t.name, gracefullyCancelledSkip)) := by
  unfold dagSkips
  suffices h : ∀ acc : List (String × String),
      tasks.foldl (fun skips t =>
        match classifyDAGTask snap ⟨true, false⟩ skips t with
        | some r => skips ++ [(t.name, r)]
        | none => skips) acc =
      acc ++ tasks.filterMap (fun t =>
        if (snap.childOf t.name).isSome then none
        else some (t.name, gracefullyCancelledSkip)) by
    simpa using h []
  induction tasks with
  | nil => intro acc; simp
  | cons t ts ih =>
    intro acc
    rw [List.foldl_cons, List.filterMap_cons, classify_graceful]
    by_cases h : (snap.childOf t.name).isSome
    · simp only [h, if_true]
      rw [ih]
    · simp only [h, if_false]
      rw [ih]
      simp

theorem reconcileGraceful_eq (pr : PRState) (inp : ReconcileInput)
    (hs : pr.specStatus = SpecStatus.cancelledRunFinally) :
    reconcileGraceful pr inp =
      (let toPatch := nonTerminalChildren inp.snapshot pr.spec.tasks
       let patches := toPatch.map Action.patchCancel
       if toPatch.all inp.patchOk then
         let skips := dagSkips inp.snapshot ⟨true, false⟩ pr.spec.tasks
         let dagDone := dagComplete inp.snapshot skips pr.spec.tasks
         let fSkips := if dagDone then finallySkips inp.snapshot pr.spec.finallyTasks else []
         let creates :=
           if dagDone then
             (pr.spec.finallyTasks.filter (fun t =>
               (inp.snapshot.childOf t.name).isNone &&
                 (List.lookup t.name fSkips).isNone)).map
               (fun t => Action.createChild t.name)
           else []
         let allSkips := skips ++ fSkips
         let finallyDone := dagDone && pr.spec.finallyTasks.all
             (fun t => taskDoneOrSkipped inp.snapshot fSkips t.name)
         if finallyDone then
           ⟨{ pr with
               condition := some ⟨.condFalse, reasonCancelled⟩
               completionTime := some inp.now
               skippedTasks := pr.skippedTasks ++ allSkips },
             patches ++ creates, [⟨.warning, reasonCancelled⟩], false⟩
         else
           ⟨{ pr with
               condition := some ⟨.unknown, reasonCancelledRunningFinally⟩
               skippedTasks := pr.skippedTasks ++ allSkips },
             patches ++ creates, [⟨.normal, reasonCancelledRunningFinally⟩], false⟩
       else
         ⟨{ pr with condition := some ⟨.unknown, reasonCouldntCancel⟩ }, patches,
           [⟨.normal, "PipelineRunCouldntCancel"⟩], true⟩) := by
  unfold reconcileGraceful
  simp [hs]

end PipelineRun

namespace PipelineRun

theorem patchCancel_mem_mixed (u : String) (l1 : List String) (l2 : List PipelineTask) :
    (Action.patchCancel u ∈ l1.map Action.patchCancel ++
      l2.map (fun t => Action.createChild t.name)) ↔ u ∈ l1 := by
  simp [List.mem_append, List.mem_map]

/-- C5 (amended): for a gracefully cancelled pipeline-run
(`CancelledRunFinally`, not timed out, not yet terminal): the patched children
are exactly the non-terminal DAG children — completed DAG children and finally
children are left untouched while still-running DAG children ARE patched to
cancel; once the patches succeed, every unstarted DAG task is recorded skipped
with reason `GracefullyCancelledSkip`; finally tasks are still created once
the DAG is quiescent; and the run becomes terminal (False, `Cancelled`) only
once the finally sub-graph completes, staying (Unknown,
`CancelledRunningFinally`) with no completion time while finally runs. -/
theorem graceful_cancel_behavior (pr : PRState) (inp : ReconcileInput)
    (hs : pr.specStatus = SpecStatus.cancelledRunFinally)
    (ht : isTerminal pr.condition = false)
    (hto : hasTimedOut inp.now (pr.startTime.getD inp.now) pr.timeout = false) :
    (∀ u, Action.patchCancel u ∈ (reconcile pr inp).actions ↔
      u ∈ nonTerminalChildren inp.snapshot pr.spec.tasks) ∧
    ((nonTerminalChildren inp.snapshot pr.spec.tasks).all inp.patchOk = true →
      ∀ t ∈ pr.spec.tasks, inp.snapshot.childOf t.name = none →
        (t.name, gracefullyCancelledSkip) ∈ (reconcile pr inp).state.skippedTasks) ∧
    ((nonTerminalChildren inp.snapshot pr.spec.tasks).all inp.patchOk = true →
      dagComplete inp.snapshot (dagSkips inp.snapshot ⟨true, false⟩ pr.spec.tasks)
        pr.spec.tasks = true →
      ∀ f ∈ pr.spec.finallyTasks, (inp.snapshot.childOf f.name).isNone = true →
        (List.lookup f.name (finallySkips inp.snapshot pr.spec.finallyTasks)).isNone = true →
        Action.createChild f.name ∈ (reconcile pr inp).actions) ∧
    ((nonTerminalChildren inp.snapshot pr.spec.tasks).all inp.patchOk = true →
      dagComplete inp.snapshot (dagSkips inp.snapshot ⟨true, false⟩ pr.spec.tasks)
        pr.spec.tasks = true →
      pr.spec.finallyTasks.all (fun f => taskDoneOrSkipped inp.snapshot
        (finallySkips inp.snapshot pr.spec.finallyTasks) f.name) = true →
      (reconcile pr inp).state.condition = some ⟨.condFalse, reasonCancelled⟩ ∧
      (reconcile pr inp).state.completionTime = some inp.now) ∧
    ((nonTerminalChildren inp.snapshot pr.spec.tasks).all inp.patchOk = true →
      (dagComplete inp.snapshot (dagSkips inp.snapshot ⟨true, false⟩ pr.spec.tasks)
          pr.spec.tasks &&
        pr.spec.finallyTasks.all (fun f => taskDoneOrSkipped inp.snapshot
          (if dagComplete inp.snapshot (dagSkips inp.snapshot ⟨true, false⟩ pr.spec.tasks)
              pr.spec.tasks = true
           then finallySkips inp.snapshot pr.spec.finallyTasks
           else []) f.name)) = false →
      (reconcile pr inp).state.condition = some ⟨.unknown, reasonCancelledRunningFinally⟩ ∧
      (reconcile pr inp).state.completionTime = pr.completionTime) := by
  have hfix : ({ pr with startTime := some (pr.startTime.getD inp.now) } : PRState).specStatus
      = SpecStatus.cancelledRunFinally := hs
  have hred : reconcile pr inp =
      reconcileGraceful { pr with startTime := some (pr.startTime.getD inp.now) } inp := by
    unfold reconcile
    dsimp only
    simp [ht, hs, hto]
  rw [hred, reconcileGraceful_eq _ _ hfix]
  dsimp only
  refine ⟨?_, ?_, ?_, ?_, ?_⟩
  · intro u
    by_cases hall : (nonTerminalChildren inp.snapshot pr.spec.tasks).all inp.patchOk
    · simp only [hall, if_true]
      by_cases hfd : (dagComplete inp.snapshot
            (dagSkips inp.snapshot ⟨true, false⟩ pr.spec.tasks) pr.spec.tasks &&
          pr.spec.finallyTasks.all (fun t => taskDoneOrSkipped inp.snapshot
            (if dagComplete inp.snapshot (dagSkips inp.snapshot ⟨true, false⟩ pr.spec.tasks)
                pr.spec.tasks = true
             then finallySkips inp.snapshot pr.spec.finallyTasks
             else []) t.name)) = true
      · rw [if_pos hfd]
        by_cases hdd : dagComplete inp.snapshot
            (dagSkips inp.snapshot ⟨true, false⟩ pr.spec.tasks) pr.spec.tasks = true
        · simp only [hdd, if_true]
          exact patchCancel_mem_mixed u _ _
        · simp only [hdd, if_false]
          simp [List.mem_map]
      · rw [if_neg (by simpa using hfd)]
        by_cases hdd : dagComplete inp.snapshot
            (dagSkips inp.snapshot ⟨true, false⟩ pr.spec.tasks) pr.spec.tasks = true
        · simp only [hdd, if_true]
          exact patchCancel_mem_mixed u _ _
        · simp only [hdd, if_false]
          simp [List.mem_map]
    · simp only [hall, Bool.false_eq_true, if_false]
      simp [List.mem_map]
  · intro hall t htt hchild
    have hmem : (t.name, gracefullyCancelledSkip) ∈
        dagSkips inp.snapshot ⟨true, false⟩ pr.spec.tasks := by
      rw [dagSkips_graceful]
      exact List.mem_filterMap.mpr ⟨t, htt, by simp [hchild]⟩
    simp only [hall, if_true]
    split_ifs <;> simp only [List.mem_append] <;> exact Or.inr (Or.inl hmem)
  · intro hall hdd f hf hchild hlook
    simp only [hall, if_true, hdd]
    have hcmem : Action.createChild f.name ∈
        (pr.spec.finallyTasks.filter (fun t =>
          (inp.snapshot.childOf t.name).isNone &&
            (List.lookup t.name (finallySkips inp.snapshot pr.spec.finallyTasks)).isNone)).map
          (fun t => Action.createChild t.name) :=
      List.mem_map.mpr ⟨f, List.mem_filter.mpr ⟨hf, by simp [hchild, hlook]⟩, rfl⟩
    split_ifs <;> simp only [List.mem_append] <;> right
    · simpa [hdd] using hcmem
    · simpa [hdd] using hcmem
  · intro hall hdd hfin
    simp only [hall, if_true]
    rw [if_pos]
    · exact ⟨rfl, rfl⟩
    · rw [hdd]
      simpa [hdd] using hfin
  · intro hall hfd
    simp only [hall, if_true]
    rw [if_neg]
    · exact ⟨rfl, rfl⟩
    · simpa using hfd

/-- C5 counterexample to the claim as stated: in the graceful-cancellation
case of `TestReconcileCancelledFailsTaskRunCancellation`, the still-running
DAG child `hello-world-1` IS patched to cancel, so already-running DAG
children are not left unpatched. -/
theorem graceful_cancel_patches_running_counterexample :
    Action.patchCancel "hello-world-1" ∈
      (reconcile prFailsToCancel ⟨5, snapOneRunning, fun _ => true⟩).actions := by
  decide

/-- Witness for `graceful_cancel_behavior`, following
`runTestReconcileOnCancelledRunFinallyPipelineRunWithFinalTask`: with nothing
started, no child is patched, the two DAG tasks are skipped
`GracefullyCancelledSkip`, the finally task is created, and the run stays
non-terminal (Unknown, `CancelledRunningFinally`). -/
theorem graceful_cancel_behavior_witness :
    ((Action.patchCancel "hello-world-1" ∈
        (reconcile prGracefulFinally ⟨9, ⟨[]⟩, fun _ => true⟩).actions) ↔
      "hello-world-1" ∈ nonTerminalChildren ⟨[]⟩ prGracefulFinally.spec.tasks) ∧
    ("hello-world-1", gracefullyCancelledSkip) ∈
      (reconcile prGracefulFinally ⟨9, ⟨[]⟩, fun _ => true⟩).state.skippedTasks ∧
    ("hello-world-2", gracefullyCancelledSkip) ∈
      (reconcile prGracefulFinally ⟨9, ⟨[]⟩, fun _ => true⟩).state.skippedTasks ∧
    Action.createChild "final-task-1" ∈
      (reconcile prGracefulFinally ⟨9, ⟨[]⟩, fun _ => true⟩).actions ∧
    (reconcile prGracefulFinally ⟨9, ⟨[]⟩, fun _ => true⟩).state.condition =
      some ⟨.unknown, reasonCancelledRunningFinally⟩ ∧
    (reconcile prGracefulFinally ⟨9, ⟨[]⟩, fun _ => true⟩).state.completionTime = none := by
  have h := graceful_cancel_behavior prGracefulFinally ⟨9, ⟨[]⟩, fun _ => true⟩
    rfl (by decide) (by decide)
  refine ⟨h.1 "hello-world-1", ?_, ?_, ?_, ?_, ?_⟩
  · exact h.2.1 (by decide) ⟨"hello-world-1", [], [], [], 0⟩ (by decide) (by decide)
  · exact h.2.1 (by decide) ⟨"hello-world-2", ["hello-world-1"], [], [], 0⟩ (by decide)
      (by decide)
  · exact h.2.2.1 (by decide) (by decide) ⟨"final-task-1", [], [], [], 0⟩ (by decide)
      (by decide) (by decide)
  · exact (h.2.2.2.2 (by decide) (by decide)).1
  · exact (h.2.2.2.2 (by decide) (by decide)).2

end PipelineRun

namespace PipelineRun

/-- C4: `when` expressions are scoped to the node itself — a task whose
skipped parents were all skipped with reason `WhenExpressionsSkip` is never
classified `ParentTasksSkip` on their account; but an unstarted task whose
(done-or-skipped) parents include a referenced result that is unavailable —
e.g. because the producing task was when-skipped — is classified
`MissingResultsSkip`; and a task recorded in the DAG skip map never gets a
child created by the ordinary pass. -/
theorem when_scoped_to_task (snap : Snapshot) (skips : List (String × String))
    (t : PipelineTask) (pr : PRState) (inp : ReconcileInput) (u : String) :
    ((∀ p r, List.lookup p skips = some r → r = whenExpressionsSkip) →
      classifyDAGTask snap normalMode skips t ≠ some parentTasksSkip) ∧
    ((snap.childOf t.name).isSome = false →
      ((parents t).any (fun p =>
        match List.lookup p skips with
        | some r => r ≠ whenExpressionsSkip
        | none => false)) = false →
      ((parents t).all (taskDoneOrSkipped snap skips)) = true →
      ((resultRefs t).any (fun pr2 => (lookupResult snap pr2.1 pr2.2).isNone)) = true →
      classifyDAGTask snap normalMode skips t = some missingResultsSkip) ∧
    ((List.lookup u (dagSkips inp.snapshot normalMode pr.spec.tasks)).isSome = true →
      u ∉ pr.spec.finallyTasks.map (fun f => f.name) →
      Action.createChild u ∉ (reconcileNormal pr inp).actions) := by
  refine ⟨?_, ?_, ?_⟩
  · intro hw
    have hpar : ((parents t).any (fun p =>
        match List.lookup p skips with
        | some r => r ≠ whenExpressionsSkip
        | none => false)) = false := by
      rw [List.any_eq_false]
      intro p hp
      cases hl : List.lookup p skips with
      | none => simp
      | some r => simp [hw p r hl]
    unfold classifyDAGTask
    dsimp only [normalMode]
    intro hcon
    rw [hpar] at hcon
    split_ifs at hcon <;> exact absurd hcon (by decide)
  · intro h1 h2 h3 h4
    unfold classifyDAGTask
    dsimp only [normalMode]
    simp [h1, h2, h3, h4]
    intro x hx hmatch
    exfalso
    have h2' := List.any_eq_false.mp h2 x hx
    simp only [ne_eq, decide_not] at h2'
    exact absurd hmatch h2'
  · intro hsk hnf hmem
    unfold reconcileNormal at hmem
    dsimp only at hmem
    split_ifs at hmem <;>
    · rcases List.mem_append.mp hmem with hm | hm
      · rcases List.mem_map.mp hm with ⟨tk, htk, he⟩
        rcases List.mem_filter.mp htk with ⟨_, hready⟩
        injection he with he'
        unfold readyToCreate at hready
        rw [he'] at hready
        simp only [Bool.and_eq_true] at hready
        have h2 := hready.1.2
        rw [Option.isNone_iff_eq_none] at h2
        rw [h2] at hsk
        cases hsk
      · first
        | (rcases List.mem_map.mp hm with ⟨f, hf, he⟩
           injection he with he'
           exact hnf (List.mem_map.mpr ⟨f, (List.mem_filter.mp hf).1, he'⟩))
        | cases hm

/-- Witness for `when_scoped_to_task`, following
`TestReconcileWithWhenExpressions`: the computed skip map matches the test's
expectations exactly (`a`, `c` when-skipped, `e` missing-results, `f`
parent-skipped); `b` is not parent-skipped behind the when-skipped `a`;
`e` is missing-results-skipped; and no child is created for the skipped
`a-task` — the pass creates exactly `b-task` and `d-task`. -/
theorem when_scoped_to_task_witness :
    dagSkips ⟨[]⟩ normalMode whenTestTasks =
      [("a-task", whenExpressionsSkip), ("c-task", whenExpressionsSkip),
       ("e-task", missingResultsSkip), ("f-task", parentTasksSkip)] ∧
    classifyDAGTask ⟨[]⟩ normalMode [("a-task", whenExpressionsSkip)]
        ⟨"b-task", ["a-task"], [], [], 0⟩ ≠ some parentTasksSkip ∧
    classifyDAGTask ⟨[]⟩ normalMode [("a-task", whenExpressionsSkip)]
        ⟨"e-task", [], [⟨.resultRef "a-task" "aResult", "in", ["aResultValue"]⟩], [], 0⟩ =
      some missingResultsSkip ∧
    Action.createChild "a-task" ∉
      (reconcileNormal ⟨.unset, ⟨whenTestTasks, []⟩, 0, some 0, none,
        some ⟨.unknown, "Running"⟩, []⟩ ⟨3, ⟨[]⟩, fun _ => true⟩).actions ∧
    (reconcileNormal ⟨.unset, ⟨whenTestTasks, []⟩, 0, some 0, none,
        some ⟨.unknown, "Running"⟩, []⟩ ⟨3, ⟨[]⟩, fun _ => true⟩).actions =
      [Action.createChild "b-task", Action.createChild "d-task"] := by
  refine ⟨by decide, ?_, ?_, ?_, by decide⟩
  · exact (when_scoped_to_task ⟨[]⟩ [("a-task", whenExpressionsSkip)]
      ⟨"b-task", ["a-task"], [], [], 0⟩
      ⟨.unset, ⟨whenTestTasks, []⟩, 0, some 0, none, some ⟨.unknown, "Running"⟩, []⟩
      ⟨3, ⟨[]⟩, fun _ => true⟩ "a-task").1 (by
        intro p r h
        simp only [List.lookup] at h
        split at h
        · injection h with h'
          exact h'.symm
        · simp [List.lookup] at h)
  · exact (when_scoped_to_task ⟨[]⟩ [("a-task", whenExpressionsSkip)]
      ⟨"e-task", [], [⟨.resultRef "a-task" "aResult", "in", ["aResultValue"]⟩], [], 0⟩
      ⟨.unset, ⟨whenTestTasks, []⟩, 0, some 0, none, some ⟨.unknown, "Running"⟩, []⟩
      ⟨3, ⟨[]⟩, fun _ => true⟩ "e-task").2.1 (by decide) (by decide) (by decide) (by decide)
  · exact (when_scoped_to_task ⟨[]⟩ [] ⟨"x", [], [], [], 0⟩
      ⟨.unset, ⟨whenTestTasks, []⟩, 0, some 0, none, some ⟨.unknown, "Running"⟩, []⟩
      ⟨3, ⟨[]⟩, fun _ => true⟩ "a-task").2.2 (by decide) (by decide)

end PipelineRun
